import Mathlib

/-!
Verification development for the kuexd game backend (Node.js/Socket.io).

The JavaScript sources are shallowly embedded: each handler becomes a pure
Lean function on an explicit state, string socket/room identifiers become
`Nat`, JS `Map`s/objects keyed by id become association lists in key order,
and the random inputs of the code (`Math.random` in `generateRoomId`,
`shuffleDeck`, spawn positions) become explicit parameters of the embedded
functions.  Broadcast side effects (`io.emit`, `io.to(channel).emit`) are
embedded as event lists returned alongside the new state.  JavaScript
numbers are embedded as exact rationals extended with the IEEE special
values `NaN`, `Infinity` and `-Infinity` (`JNum` below); finite float
rounding is idealized as exact rational arithmetic.
-/

/-- A JavaScript number: a finite value (idealized as an exact rational) or
one of the IEEE special values `NaN`, `Infinity`, `-Infinity`. -/
inductive JNum where
  | num (q : ℚ)
  | nan
  | inf
  | ninf
deriving DecidableEq

/-- Linear scan for the integer square root: the first `k` with
`(k+1)^2 > n`, driven by explicit fuel so that it reduces inside the
kernel. -/
def natSqrtScan (n : Nat) : Nat → Nat → Nat
  | 0, k => k
  | fuel + 1, k => if (k + 1) * (k + 1) > n then k else natSqrtScan n fuel (k + 1)

/-- Integer square root (floor). -/
def natSqrt (n : Nat) : Nat := natSqrtScan n n 0

/-- `Math.sqrt` restricted to nonnegative rationals.  It is exact whenever the
numerator and denominator are perfect squares (the only case exercised by the
concrete witnesses below); like floating point `Math.sqrt`, it is an
approximation elsewhere.  None of the verified control-flow properties depend
on its value. -/
def ratSqrt (q : ℚ) : ℚ :=
  (natSqrt q.num.toNat : ℚ) / (natSqrt q.den : ℚ)

/-- JS addition on numbers (`+`), with IEEE special-value rules. -/
def jadd : JNum → JNum → JNum
  | JNum.num a, JNum.num b => JNum.num (a + b)
  | JNum.nan, _ => JNum.nan
  | _, JNum.nan => JNum.nan
  | JNum.inf, JNum.ninf => JNum.nan
  | JNum.ninf, JNum.inf => JNum.nan
  | JNum.inf, _ => JNum.inf
  | _, JNum.inf => JNum.inf
  | JNum.ninf, _ => JNum.ninf
  | _, JNum.ninf => JNum.ninf

/-- JS subtraction on numbers (`-`), with IEEE special-value rules. -/
def jsub : JNum → JNum → JNum
  | JNum.num a, JNum.num b => JNum.num (a - b)
  | JNum.nan, _ => JNum.nan
  | _, JNum.nan => JNum.nan
  | JNum.inf, JNum.inf => JNum.nan
  | JNum.ninf, JNum.ninf => JNum.nan
  | JNum.inf, _ => JNum.inf
  | _, JNum.inf => JNum.ninf
  | JNum.ninf, _ => JNum.ninf
  | _, JNum.ninf => JNum.inf

/-- JS multiplication on numbers (`*`), with IEEE special-value rules
(`Infinity * 0 = NaN`, sign rules for infinities). -/
def jmul : JNum → JNum → JNum
  | JNum.num a, JNum.num b => JNum.num (a * b)
  | JNum.nan, _ => JNum.nan
  | _, JNum.nan => JNum.nan
  | JNum.inf, JNum.inf => JNum.inf
  | JNum.inf, JNum.ninf => JNum.ninf
  | JNum.ninf, JNum.inf => JNum.ninf
  | JNum.ninf, JNum.ninf => JNum.inf
  | JNum.inf, JNum.num b => if b > 0 then JNum.inf else if b < 0 then JNum.ninf else JNum.nan
  | JNum.num a, JNum.inf => if a > 0 then JNum.inf else if a < 0 then JNum.ninf else JNum.nan
  | JNum.ninf, JNum.num b => if b > 0 then JNum.ninf else if b < 0 then JNum.inf else JNum.nan
  | JNum.num a, JNum.ninf => if a > 0 then JNum.ninf else if a < 0 then JNum.inf else JNum.nan

/-- JS division on numbers (`/`), with IEEE special-value rules
(`x/Infinity = 0`, `Infinity/Infinity = NaN`, `x/0` signed infinity,
`0/0 = NaN`; signed zero is not modelled). -/
def jdiv : JNum → JNum → JNum
  | JNum.num a, JNum.num b =>
      if b ≠ 0 then JNum.num (a / b)
      else if a = 0 then JNum.nan
      else if a > 0 then JNum.inf else JNum.ninf
  | JNum.nan, _ => JNum.nan
  | _, JNum.nan => JNum.nan
  | JNum.inf, JNum.inf => JNum.nan
  | JNum.inf, JNum.ninf => JNum.nan
  | JNum.ninf, JNum.inf => JNum.nan
  | JNum.ninf, JNum.ninf => JNum.nan
  | JNum.num _, JNum.inf => JNum.num 0
  | JNum.num _, JNum.ninf => JNum.num 0
  | JNum.inf, JNum.num b => if b < 0 then JNum.ninf else JNum.inf
  | JNum.ninf, JNum.num b => if b < 0 then JNum.inf else JNum.ninf

/-- `Math.sqrt` on JS numbers: `NaN` for negative inputs and `-Infinity`,
`Infinity` for `Infinity`, `NaN` propagates. -/
def jsqrt : JNum → JNum
  | JNum.num q => if q < 0 then JNum.nan else JNum.num (ratSqrt q)
  | JNum.nan => JNum.nan
  | JNum.inf => JNum.inf
  | JNum.ninf => JNum.nan

/-- JS `<` on numbers: any comparison involving `NaN` is false. -/
def jlt : JNum → JNum → Bool
  | JNum.nan, _ => false
  | _, JNum.nan => false
  | JNum.num a, JNum.num b => a < b
  | JNum.ninf, JNum.ninf => false
  | JNum.ninf, _ => true
  | _, JNum.ninf => false
  | JNum.inf, _ => false
  | JNum.num _, JNum.inf => true

/-- JS `<=` on numbers: any comparison involving `NaN` is false. -/
def jle : JNum → JNum → Bool
  | JNum.nan, _ => false
  | _, JNum.nan => false
  | JNum.num a, JNum.num b => a ≤ b
  | JNum.ninf, _ => true
  | _, JNum.ninf => false
  | _, JNum.inf => true
  | JNum.inf, JNum.num _ => false

/-- JS `>` on numbers. -/
def jgt (a b : JNum) : Bool := jlt b a

/-- JS `>=` on numbers. -/
def jge (a b : JNum) : Bool := jle b a

/-- JS truthiness of a number: `0` and `NaN` are falsy, every other number
(including infinities) is truthy. -/
def jsTruthy : JNum → Bool
  | JNum.num q => q ≠ 0
  | JNum.nan => false
  | JNum.inf => true
  | JNum.ninf => true

/-- Is this value a finite number? -/
def isNum : JNum → Bool
  | JNum.num _ => true
  | _ => false

/-!
## Lobby / room model (`utils/gameUtils.js`, `sockets/index.js`)

Socket ids and room ids (random strings in JS) are embedded as `Nat`.
A `games[gameId]` entry's `rooms` / `activeRooms` objects (JS maps keyed by
room id) are embedded as lists of rooms in key-insertion order; JS map
assignment becomes `setRoom` (replace the entry with that key, else append)
and `delete` becomes `eraseRoom` (remove the entry with that key).
The card-game fields that JS adds to a room dynamically when the match
starts (`playedCards`, `currentPlayerIndex`, ...) are always present in the
embedded `Room`, with inert default values while the room is in the lobby.
-/

/-- A player object as stored in `room.players`.  Lobby fields
(`socketId`, `userName`, `isReady`) plus the card-duel fields that
`startBiggestTomatoRoom` adds in place (`cards`, `isDead`). -/
structure Player where
  socketId : Nat
  userName : String
  isReady : Bool := false
  cards : List String := []
  isDead : Bool := false
deriving DecidableEq

/-- A room object.  Lobby fields plus the card-duel fields added in place by
`startBiggestTomatoRoom` (inert defaults pre-match). -/
structure Room where
  id : Nat
  name : String := ""
  maxPlayers : Nat := 4
  players : List Player := []
  isActive : Bool := false
  playedCards : List String := []
  currentPlayerIndex : Nat := 0
  currentPlayerSocketId : Nat := 0
  winner : Option Nat := none
deriving DecidableEq

/-- `room.players.length === 0`. -/
def isEmptyRoom (r : Room) : Bool := r.players.isEmpty

/-- Number of zero-player rooms in a room map. -/
def countEmpty (rooms : List Room) : Nat := (rooms.filter isEmptyRoom).length

/-- JS map assignment `rooms[r.id] = r`: replace the entry with that key if
present, otherwise append a new entry. -/
def setRoom : List Room → Room → List Room
  | [], r => [r]
  | x :: xs, r => if x.id == r.id then r :: xs else x :: setRoom xs r

/-- JS map deletion `delete rooms[i]`: remove the entry with key `i`. -/
def eraseRoom : List Room → Nat → List Room
  | [], _ => []
  | x :: xs, i => if x.id == i then xs else x :: eraseRoom xs i

/-- JS map lookup `rooms[i]` (as used through `Object.values`-order lists). -/
def findRoom (rooms : List Room) (i : Nat) : Option Room :=
  rooms.find? (fun r => r.id == i)

/-- The fresh room object created by `ensureSingleEmptyRoom`. -/
def mkEmptyRoom (newRoomId : Nat) : Room :=
  { id := newRoomId, name := "Room", maxPlayers := 4, players := [], isActive := false }

/-- The `while (emptyRooms.length > 1)` loop of `ensureSingleEmptyRoom`:
`emptyRooms.pop()` repeatedly deletes empty rooms from the back of the
filtered snapshot, so exactly the first empty room (in map order) survives.
`seen` records whether the first empty room has been passed already. -/
def pruneEmpties : Bool → List Room → List Room
  | _, [] => []
  | seen, r :: rs =>
      if isEmptyRoom r then
        if seen then pruneEmpties true rs else r :: pruneEmpties true rs
      else r :: pruneEmpties seen rs

/-- `ensureSingleEmptyRoom(gameId, games, io)` from `utils/gameUtils.js`:
delete all but one empty room; if there is no empty room, create a fresh one
(`generateRoomId` is random, embedded as the `newRoomId` parameter).  The
`activeRoomCountResponse` broadcast per deletion is not modelled here. -/
def ensureSingleEmptyRoom (rooms : List Room) (newRoomId : Nat) : List Room :=
  if ((rooms.filter isEmptyRoom).isEmpty : Bool) then setRoom rooms (mkEmptyRoom newRoomId)
  else pruneEmpties false rooms

/-- The player object pushed by the `joinRoom` handler. -/
def mkPlayer (sockId : Nat) (userName : String) : Player :=
  { socketId := sockId, userName := userName, isReady := false }

/-- The `joinRoom` socket handler (`sockets/index.js`): no-op if the room is
absent or the socket already occupies it; otherwise push a new non-ready
player, and if the room just gained its first player re-invoke
`ensureSingleEmptyRoom` (with fresh random id `newRoomId`).  Channel joins
and the `roomsList` broadcast are not modelled. -/
def joinRoom (rooms : List Room) (roomId sockId : Nat) (userName : String)
    (newRoomId : Nat) : List Room :=
  match findRoom rooms roomId with
  | none => rooms
  | some room =>
      if room.players.any (fun p => p.socketId == sockId) then rooms
      else
        let room' := { room with players := room.players ++ [mkPlayer sockId userName] }
        let rooms' := setRoom rooms room'
        if room'.players.length == 1 then ensureSingleEmptyRoom rooms' newRoomId
        else rooms'

/-- The `leaveRoom` socket handler (`sockets/index.js`): remove the player;
if the room is now empty and more than one empty room exists, delete it.
Channel leave and broadcasts are not modelled. -/
def leaveRoom (rooms : List Room) (roomId sockId : Nat) : List Room :=
  match findRoom rooms roomId with
  | none => rooms
  | some room =>
      let room' := { room with players := room.players.filter (fun p => !(p.socketId == sockId)) }
      let rooms' := setRoom rooms room'
      if room'.players.isEmpty && countEmpty rooms' > 1 then eraseRoom rooms' roomId
      else rooms'

/-!
## Card duel (`sockets/games/biggestTomato.js`) and countdown
(`utils/gameUtils.js` `startCountdown`, `utils/gameRegistry.js`
`initializeGame`)
-/

/-- The fixed 13-rank deck, in `rankOrder` order (`biggestTomato.js`). -/
def rankOrder : List String :=
  ["A", "2", "3", "4", "5", "6", "7", "8", "9", "10", "J", "Q", "K"]

/-- JS `Array.prototype.indexOf`: first index of the element, `-1` if absent. -/
def jsIndexOf (l : List String) (s : String) : Int :=
  match l.indexOf? s with
  | some i => (i : Int)
  | none => -1

/-- `compareCards(cardA, cardB)`: true iff `cardA`'s rank index is strictly
greater than `cardB`'s. -/
def compareCards (cardA cardB : String) : Bool :=
  jsIndexOf rankOrder cardA > jsIndexOf rankOrder cardB

/-- The dealing loop of `startBiggestTomatoRoom`: each player in order takes
`deck.slice(0, 5)` and the deck loses those 5 cards (`deck.splice(0, 5)`);
dead flags are cleared. -/
def dealCards : List Player → List String → List Player
  | [], _ => []
  | p :: ps, deck =>
      { p with isDead := false, cards := deck.take 5 } :: dealCards ps (deck.drop 5)

/-- `startBiggestTomatoRoom(game, room)`: deal 5 cards to each player from a
shuffled deck, reset the play history, turn pointer and winner.  The
Fisher-Yates `shuffleDeck` output is random; it is embedded as the `deck`
parameter (the deck in post-shuffle order). -/
def startBiggestTomatoRoom (room : Room) (deck : List String) : Room :=
  if room.players.isEmpty then room
  else
    let players' := dealCards room.players deck
    { room with
      players := players'
      playedCards := []
      currentPlayerIndex := 0
      currentPlayerSocketId := ((players'.head?).map Player.socketId).getD 0
      winner := none }

/-- One entry of the `players` array in the card-duel `gameStateUpdate`
payload. -/
structure TPlayerView where
  socketId : Nat
  userName : String
  isDead : Bool
  cards : List String
deriving DecidableEq

/-- The card-duel `gameStateUpdate` payload built by `broadcastGameState`
(`biggestTomato.js`). -/
structure TPayload where
  roomId : Nat
  players : List TPlayerView
  lastPlayedCard : Option String
  playedCardHistory : List String
  currentPlayerId : Nat
  winner : Option Nat
deriving DecidableEq

/-- `broadcastGameState(io, gameId, roomId, room)` from `biggestTomato.js`,
embedded as the payload it emits: `lastPlayedCard` is the second-to-last
played card (`played[played.length - 2]`, `null` when fewer than two),
`playedCardHistory` is `played.slice(0, played.length - 2)` when more than
two cards were played, and the most recent card appears in neither. -/
def broadcastGameState (roomId : Nat) (room : Room) : TPayload :=
  let played := room.playedCards
  let displayedLastCard : Option String :=
    if 2 ≤ played.length then played[played.length - 2]? else none
  let displayedHistory : List String :=
    if 2 < played.length then played.take (played.length - 2) else []
  { roomId := roomId
    players := room.players.map (fun p =>
      { socketId := p.socketId, userName := p.userName, isDead := p.isDead, cards := p.cards })
    lastPlayedCard := displayedLastCard
    playedCardHistory := displayedHistory
    currentPlayerId := room.currentPlayerSocketId
    winner := room.winner }

/-- Events emitted on the card-duel / lobby side. -/
inductive TEv where
  | countdownUpdate (roomId : Nat) (countdown : Nat)
  | gameStart (roomId : Nat)
  | gameStateUpdate (payload : TPayload)
  | gameOver (winner : Option Nat)
deriving DecidableEq

/-- A `games[gameId]` entry: lobby rooms and active rooms, both keyed maps in
key order. -/
structure GState where
  rooms : List Room := []
  activeRooms : List Room := []
deriving DecidableEq

/-- The `countdown === 0` branch of `startCountdown`'s interval callback:
mark the room active, move it from `game.rooms` to `game.activeRooms`, emit
`gameStart`, then `initializeGame` (here at its card-duel instance,
`gameId = 1`: `startBiggestTomatoRoom` followed immediately by
`broadcastGameState`).  Nothing happens if the room has meanwhile left
`game.rooms`. -/
def countdownTransition (g : GState) (roomId : Nat) (deck : List String) :
    GState × List TEv :=
  match findRoom g.rooms roomId with
  | none => (g, [])
  | some lobbyRoom =>
      let activeRoom := { lobbyRoom with isActive := true }
      let started := startBiggestTomatoRoom activeRoom deck
      ({ rooms := eraseRoom g.rooms roomId
         activeRooms := setRoom (setRoom g.activeRooms activeRoom) started },
       [TEv.gameStart roomId, TEv.gameStateUpdate (broadcastGameState roomId started)])

/-- The interval callback of `startCountdown`, iterated: each firing
decrements the counter and emits `countdownUpdate {roomId, countdown}` with
the decremented value; when it reaches 0, `clearInterval` stops the loop and
the lobby-to-active transition runs. -/
def countdownLoop (roomId : Nat) (deck : List String) : Nat → GState → GState × List TEv
  | 0, g => (g, [])
  | c + 1, g =>
      if c == 0 then
        ((countdownTransition g roomId deck).1,
         TEv.countdownUpdate roomId 0 :: (countdownTransition g roomId deck).2)
      else
        ((countdownLoop roomId deck c g).1,
         TEv.countdownUpdate roomId c :: (countdownLoop roomId deck c g).2)

/-- `startCountdown(gameId, roomId, games, io)` run to completion: the local
counter starts at 10 and the interval fires until it reaches 0. -/
def startCountdown (g : GState) (roomId : Nat) (deck : List String) :
    GState × List TEv :=
  countdownLoop roomId deck 10 g

/-- The `secondsRemaining` values carried by the `countdownUpdate` events of
an event trace, in order. -/
def countdownValues (evs : List TEv) : List Nat :=
  evs.filterMap (fun e =>
    match e with
    | TEv.countdownUpdate _ c => some c
    | _ => none)

/-!
### Readiness toggling and countdown-timer registration
(`sockets/index.js` `toggleReady`, `utils/gameUtils.js` `startCountdown`)

`startCountdown` keeps its `setInterval` handle in a local constant
(`const intervalId = ...`); the handle is never stored on the room and no
existing countdown interval is cleared before a new one is registered.  The
orchestrator state below therefore tracks the multiset of running countdown
intervals per room: `toggleReady` only ever appends to it.
-/

/-- `allPlayersReady(room)`: false for an empty room, else every player's
`isReady`. -/
def allPlayersReady (room : Room) : Bool :=
  !room.players.isEmpty && room.players.all (fun p => p.isReady)

/-- `room.players.find(p => p.socketId === socket.id)` followed by
`player.isReady = isReady`: update the first matching player in place. -/
def setReadyFirst : List Player → Nat → Bool → List Player
  | [], _, _ => []
  | p :: ps, sockId, v =>
      if p.socketId == sockId then { p with isReady := v } :: ps
      else p :: setReadyFirst ps sockId v

/-- Orchestrator state for readiness/countdown: the lobby rooms of one game
and the room ids of all currently running countdown intervals (one entry per
live `setInterval` registration). -/
structure OrcState where
  rooms : List Room := []
  countdownTimers : List Nat := []
deriving DecidableEq

/-- The `toggleReady` socket handler: set the flag on the sender's player (if
seated), and if all players of the room are now ready call `startCountdown`,
which registers a fresh interval; no previously running interval for the room
is cancelled anywhere in the source. -/
def toggleReady (st : OrcState) (roomId sockId : Nat) (isReady : Bool) : OrcState :=
  match findRoom st.rooms roomId with
  | none => st
  | some room =>
      let room' := { room with players := setReadyFirst room.players sockId isReady }
      let st' : OrcState := { st with rooms := setRoom st.rooms room' }
      if allPlayersReady room' then
        { st' with countdownTimers := st'.countdownTimers ++ [roomId] }
      else st'

/-!
### Playing a card (`biggestTomato.js` `handlePlayCard`,
`nextAlivePlayer`, `endBiggestTomatoRoom`)
-/

/-- The scan of `nextAlivePlayer`: try up to `fuel` seats starting at `idx`
(wrapping), stopping at the first non-dead player. -/
def nextAliveScan (room : Room) : Nat → Nat → Room
  | 0, _ => room
  | fuel + 1, idx =>
      match room.players[idx]? with
      | none => room
      | some candidate =>
          if !candidate.isDead then
            { room with currentPlayerIndex := idx, currentPlayerSocketId := candidate.socketId }
          else nextAliveScan room fuel ((idx + 1) % room.players.length)

/-- `nextAlivePlayer(room)`: advance the turn pointer to the next non-dead
player in seating order, wrapping around; at most `players.length`
candidates are tried. -/
def nextAlivePlayer (room : Room) : Room :=
  nextAliveScan room room.players.length ((room.currentPlayerIndex + 1) % room.players.length)

/-- `player.isDead = true` / `player.cards = ...` on the player object found
by `room.players.find(...)`: update the first player with that socket id. -/
def updateFirstPlayer : List Player → Nat → (Player → Player) → List Player
  | [], _, _ => []
  | p :: ps, sockId, f =>
      if p.socketId == sockId then f p :: ps
      else p :: updateFirstPlayer ps sockId f

/-- The room mutations of `handlePlayCard` once all guards have passed:
if a previous card exists and the new card does not compare strictly
greater, mark the acting player dead; push the card onto `playedCards`;
filter the card out of the acting player's hand; advance the turn. -/
def playCardStep (room : Room) (sockId : Nat) (card : String) : Room :=
  let eliminated :=
    match room.playedCards.getLast? with
    | some lastCard => !compareCards card lastCard
    | none => false
  let room1 :=
    { room with
      players := updateFirstPlayer room.players sockId (fun p =>
        { p with
          isDead := if eliminated then true else p.isDead
          cards := p.cards.filter (fun c => !(c == card)) })
      playedCards := room.playedCards ++ [card] }
  nextAlivePlayer room1

/-- `endBiggestTomatoRoom(game, room, games)`: delete the room from
`game.activeRooms` (if present); nothing is emitted. -/
def endBiggestTomatoRoom (g : GState) (room : Room) : GState :=
  { g with activeRooms := eraseRoom g.activeRooms room.id }

/-- The `handlePlayCard(io, games, data)` handler: look the room up in
`activeRooms` then `rooms`; drop the action if the sender is not the
current-turn player or the sending player is missing or dead (nothing in the
source checks that `card` is in the player's hand); otherwise apply
`playCardStep`, and if at most one player is left alive set the winner, emit
`gameOver` and tear the room down, else emit the updated state. -/
def handlePlayCard (g : GState) (roomId sockId : Nat) (card : String) :
    GState × List TEv :=
  let roomInActive := findRoom g.activeRooms roomId
  let found : Option (Room × Bool) :=
    match roomInActive with
    | some r => some (r, true)
    | none =>
        match findRoom g.rooms roomId with
        | some r => some (r, false)
        | none => none
  match found with
  | none => (g, [])
  | some (room, inActive) =>
      if !(sockId == room.currentPlayerSocketId) then (g, [])
      else
        match room.players.find? (fun p => p.socketId == sockId) with
        | none => (g, [])
        | some player =>
            if player.isDead then (g, [])
            else
              let room2 := playCardStep room sockId card
              let alive := room2.players.filter (fun p => !p.isDead)
              if alive.length ≤ 1 then
                let w : Option Nat :=
                  if alive.length == 1 then (alive.head?).map Player.socketId else none
                let room3 := { room2 with winner := w }
                let g1 : GState :=
                  if inActive then { g with activeRooms := setRoom g.activeRooms room3 }
                  else { g with rooms := setRoom g.rooms room3 }
                (endBiggestTomatoRoom g1 room3, [TEv.gameOver w])
              else
                let g1 : GState :=
                  if inActive then { g with activeRooms := setRoom g.activeRooms room2 }
                  else { g with rooms := setRoom g.rooms room2 }
                (g1, [TEv.gameStateUpdate (broadcastGameState roomId room2)])

/-!
## Arena shooter (`sockets/games/agarIo.js`)

World constants `WORLD_WIDTH = WORLD_HEIGHT = 1080`.  `room.playersMap` (a JS
`Map` in insertion order, whose values alias the objects in `room.players`)
is embedded as the list `playersMap`; `room.alivePlayers` (a `Set`) as a list
of socket ids; the RBush spatial index as a list of bounding-box entries,
each holding the boxed player's socket id (the live player data is read back
through `playersMap`, mirroring the JS reference), with rectangle search as a
filter and `remove(item, equalsFn)` as removal of the entry with that id. -/

/-- World width/height (`agarIo.js`). -/
def WORLD_SIZE : ℚ := 1080

/-- An arena player object (fields set by `startAgarIoRoom`). -/
structure APlayer where
  socketId : Nat
  userName : String
  x : JNum
  y : JNum
  mass : JNum
  isDead : Bool
  lastDx : JNum := JNum.num 0
  lastDy : JNum := JNum.num 0
deriving DecidableEq

/-- A bullet object (`handleShootBullet`). -/
structure ABullet where
  id : Nat
  ownerId : Nat
  x : JNum
  y : JNum
  vx : JNum
  vy : JNum
  radius : JNum
  traveled : JNum
  rangeLimit : JNum
  type : String
deriving DecidableEq

/-- One RBush entry: a bounding box plus the boxed player's socket id (the
JS entry holds a reference to the player object; current player data is read
back through `playersMap`). -/
structure SpatialEntry where
  minX : JNum
  minY : JNum
  maxX : JNum
  maxY : JNum
  playerId : Nat
deriving DecidableEq

/-- A rectangle query box. -/
structure Box where
  minX : JNum
  minY : JNum
  maxX : JNum
  maxY : JNum
deriving DecidableEq

/-- The bounding box `[x - mass, y - mass, x + mass, y + mass]` inserted for
a player. -/
def playerEntry (p : APlayer) : SpatialEntry :=
  { minX := jsub p.x p.mass, minY := jsub p.y p.mass
    maxX := jadd p.x p.mass, maxY := jadd p.y p.mass, playerId := p.socketId }

/-- RBush rectangle intersection (inclusive comparisons; with JS `NaN`
semantics every comparison against `NaN` is false, so a `NaN` box intersects
nothing). -/
def boxIntersects (q : Box) (e : SpatialEntry) : Bool :=
  jle e.minX q.maxX && jle e.minY q.maxY && jge e.maxX q.minX && jge e.maxY q.minY

/-- `playerSpatialIndex.remove(item, (a, b) => a.player.socketId ===
b.player.socketId)`: remove the entry boxed for that socket id.  (RBush's
bbox-guided descent is not modelled; removal is by the `equalsFn` key.) -/
def removeEntry : List SpatialEntry → Nat → List SpatialEntry
  | [], _ => []
  | e :: es, i => if e.playerId == i then es else e :: removeEntry es i

/-- An arena room's live state (the dynamic fields `startAgarIoRoom` puts on
the room object). -/
structure ARoom where
  id : Nat
  playersMap : List APlayer
  alivePlayers : List Nat
  bullets : List ABullet
  bulletPool : List ABullet
  bulletIdCounter : Nat
  spatialIndex : List SpatialEntry
  bulletIntervalActive : Bool
  winner : Option String
deriving DecidableEq

/-- Arena-side events. -/
inductive AEv where
  | bulletCreated (b : ABullet)
  | gameEnded (roomId : Nat) (winner : Option String)
  | roomsList (gameId : Nat)
deriving DecidableEq

/-- JS truthiness of `room.winner` (`null`/`undefined` and the empty string
are falsy). -/
def winnerTruthy : Option String → Bool
  | none => false
  | some s => s ≠ ""

/-- `room.playersMap.get(id)`. -/
def getPlayer (room : ARoom) (sockId : Nat) : Option APlayer :=
  room.playersMap.find? (fun p => p.socketId == sockId)

/-- An inbound JS payload field: a number or any non-number value. -/
inductive JSVal where
  | jsNum (n : JNum)
  | jsOther
deriving DecidableEq

/-- `typeof v === "number"` (true for `NaN` and the infinities too). -/
def isNumberVal : JSVal → Bool
  | JSVal.jsNum _ => true
  | JSVal.jsOther => false

/-- `length = Math.sqrt(dx*dx + dy*dy) || 1` in `handleShootBullet`. -/
def shotLength (dx dy : JNum) : JNum :=
  let l := jsqrt (jadd (jmul dx dx) (jmul dy dy))
  if jsTruthy l then l else JNum.num 1

/-- The bullet record built by `handleShootBullet` (a pooled record has every
field overwritten, so it coincides with a fresh allocation). -/
def shotBullet (room : ARoom) (player : APlayer) (bulletType : String)
    (dx dy : JNum) : ABullet :=
  let speedValue := JNum.num 30
  let radius := if bulletType == "fullyCharged" then JNum.num 25 else JNum.num 5
  let len := shotLength dx dy
  { id := room.bulletIdCounter
    ownerId := player.socketId
    x := player.x
    y := player.y
    vx := jmul (jdiv dx len) speedValue
    vy := jmul (jdiv dy len) speedValue
    radius := radius
    traveled := JNum.num 0
    rangeLimit := JNum.inf
    type := bulletType }

/-- `handleShootBullet(io, games, data)` (room already resolved): drop the
action if the shooter is missing or dead, if `direction` is absent or its
`x`/`y` are not of number type, or if `bulletType` is not `"charged"` or
`"fullyCharged"`; otherwise normalize the direction, scale by the kind's
speed, take a bullet from the pool (`bulletPool.pop()`) or allocate one,
push it onto `room.bullets` and emit a single `bulletCreated` event. -/
def handleShootBullet (room : ARoom) (sockId : Nat) (bulletType : String)
    (direction : Option (JSVal × JSVal)) : ARoom × List AEv :=
  match getPlayer room sockId with
  | none => (room, [])
  | some player =>
      if player.isDead then (room, [])
      else
        match direction with
        | none => (room, [])
        | some (dxv, dyv) =>
            if !isNumberVal dxv || !isNumberVal dyv
                || !(bulletType == "charged" || bulletType == "fullyCharged") then
              (room, [])
            else
              match dxv, dyv with
              | JSVal.jsNum dx, JSVal.jsNum dy =>
                  let bullet := shotBullet room player bulletType dx dy
                  ({ room with
                     bullets := room.bullets ++ [bullet]
                     bulletPool := room.bulletPool.dropLast
                     bulletIdCounter := room.bulletIdCounter + 1 },
                   [AEv.bulletCreated bullet])
              | _, _ => (room, [])

/-- Step 3 of `endAgarIoRoom`: for each player in map order, reset death
flag, mass, position (`Math.floor(Math.random() * 1080)` embedded as the
`freshPos` parameter) and last direction, then remove and re-insert the
player's spatial-index entry at the new coordinates. -/
def resetPlayersAndIndex (freshPos : Nat → ℚ × ℚ) :
    List APlayer → List SpatialEntry → List APlayer × List SpatialEntry
  | [], idx => ([], idx)
  | p :: ps, idx =>
      let p' := { p with
        isDead := false
        mass := JNum.num 10
        x := JNum.num (freshPos p.socketId).1
        y := JNum.num (freshPos p.socketId).2
        lastDx := JNum.num 0
        lastDy := JNum.num 0 }
      let idx2 := removeEntry idx p'.socketId ++ [playerEntry p']
      (p' :: (resetPlayersAndIndex freshPos ps idx2).1,
       (resetPlayersAndIndex freshPos ps idx2).2)

/-- `endAgarIoRoom(game, room, games)`: clear the tick interval, recycle all
in-flight bullets into the pool, reset every player and the spatial index,
rebuild `alivePlayers` from the map keys, delete the room from
`game.activeRooms`, then emit `gameEnded {roomId, winner}` to the room
channel and rebroadcast the room list — the two emissions are unconditional
on every call. -/
def endAgarIoRoom (gameId : Nat) (room : ARoom) (activeRoomIds : List Nat)
    (freshPos : Nat → ℚ × ℚ) : ARoom × List Nat × List AEv :=
  let room1 := { room with
    bulletIntervalActive := false
    bulletPool := room.bulletPool ++ room.bullets
    bullets := [] }
  let room2 := { room1 with
    playersMap := (resetPlayersAndIndex freshPos room1.playersMap room1.spatialIndex).1
    spatialIndex := (resetPlayersAndIndex freshPos room1.playersMap room1.spatialIndex).2
    alivePlayers := (resetPlayersAndIndex freshPos room1.playersMap
      room1.spatialIndex).1.map APlayer.socketId }
  (room2,
   activeRoomIds.filter (fun i => !(i == room.id)),
   [AEv.gameEnded room.id room.winner, AEv.roomsList gameId])

/-- The moved bullet at the top of each `updateBullets` iteration: position
advanced by the velocity and `traveled` increased by
`Math.sqrt(vx*vx + vy*vy)`. -/
def movedBullet (b : ABullet) : ABullet :=
  { b with
    x := jadd b.x b.vx
    y := jadd b.y b.vy
    traveled := jadd b.traveled (jsqrt (jadd (jmul b.vx b.vx) (jmul b.vy b.vy))) }

/-- The removal test of `updateBullets`: out of world bounds, or past a
non-`Infinity` range limit.  (With JS `NaN` semantics every comparison is
false for a `NaN` coordinate, so such a bullet never tests as out of
bounds.) -/
def outOrSpent (b : ABullet) : Bool :=
  jlt b.x (JNum.num 0) || jlt (JNum.num WORLD_SIZE) b.x
    || jlt b.y (JNum.num 0) || jlt (JNum.num WORLD_SIZE) b.y
    || (!(b.rangeLimit == JNum.inf) && jge b.traveled b.rangeLimit)

/-- The search box `[x - radius, y - radius, x + radius, y + radius]` used by
the collision query. -/
def bulletQueryBox (b : ABullet) : Box :=
  { minX := jsub b.x b.radius, minY := jsub b.y b.radius
    maxX := jadd b.x b.radius, maxY := jadd b.y b.radius }

/-- The per-candidate collision test of `updateBullets`: skip the bullet's
owner and dead players, then hit iff the squared distance to the player is
below `(radius + mass)^2`. -/
def hitCheck (b : ABullet) (room : ARoom) (e : SpatialEntry) : Bool :=
  match getPlayer room e.playerId with
  | none => false
  | some player =>
      if player.socketId == b.ownerId || player.isDead then false
      else
        let dx := jsub b.x player.x
        let dy := jsub b.y player.y
        let distSq := jadd (jmul dx dx) (jmul dy dy)
        let collisionDist := jadd b.radius player.mass
        jlt distSq (jmul collisionDist collisionDist)

/-- The first live non-owner player hit by the bullet among the spatial-index
candidates (`playerSpatialIndex.search` followed by the `for...of` loop). -/
def firstHit (b : ABullet) (room : ARoom) : Option APlayer :=
  match (room.spatialIndex.filter (boxIntersects (bulletQueryBox b))).find? (hitCheck b room) with
  | none => none
  | some e => getPlayer room e.playerId

/-- The collision branch of `updateBullets`: mark the victim dead, drop it
from `alivePlayers` and the spatial index, and recycle the bullet. -/
def killVictim (b : ABullet) (victim : APlayer) (room : ARoom) : ARoom :=
  { room with
    playersMap := room.playersMap.map (fun p =>
      if p.socketId == victim.socketId then { p with isDead := true } else p)
    alivePlayers := room.alivePlayers.filter (fun i => !(i == victim.socketId))
    bulletPool := room.bulletPool ++ [b]
    spatialIndex := removeEntry room.spatialIndex victim.socketId }

/-- One `updateBullets` iteration for one bullet: move it, then either
recycle it (out of bounds / past range), kill the first collided player and
recycle it, or keep it. -/
def stepBullet (b : ABullet) (room : ARoom) : Option ABullet × ARoom :=
  let b1 := movedBullet b
  if outOrSpent b1 then
    (none, { room with bulletPool := room.bulletPool ++ [b1] })
  else
    match firstHit b1 room with
    | none => (some b1, room)
    | some victim => (none, killVictim b1 victim room)

/-- The bullet loop of `updateBullets`: the JS `for` walks the array from the
last index down to 0 (`splice(i, 1)` only ever removes the current bullet),
so later bullets are processed first; the surviving bullets keep their
original order. -/
def bulletsLoop : List ABullet → ARoom → List ABullet × ARoom
  | [], room => ([], room)
  | b :: rest, room =>
      (match (stepBullet b (bulletsLoop rest room).2).1 with
       | some b' => b' :: (bulletsLoop rest room).1
       | none => (bulletsLoop rest room).1,
       (stepBullet b (bulletsLoop rest room).2).2)

/-- `updateBullets(game, room, games)`: run the bullet loop, then if at most
one player is still alive and no winner is recorded, record the winner (the
lone survivor's user name, or `null`) and run `endAgarIoRoom`. -/
def updateBullets (gameId : Nat) (room : ARoom) (activeRoomIds : List Nat)
    (freshPos : Nat → ℚ × ℚ) : ARoom × List Nat × List AEv :=
  let room1 := { (bulletsLoop room.bullets room).2 with
    bullets := (bulletsLoop room.bullets room).1 }
  if room1.alivePlayers.length == 1 && !winnerTruthy room1.winner then
    let w : Option String :=
      match room1.alivePlayers.head? with
      | some pid => (getPlayer room1 pid).map APlayer.userName
      | none => none
    endAgarIoRoom gameId { room1 with winner := w } activeRoomIds freshPos
  else if room1.alivePlayers.length == 0 && !winnerTruthy room1.winner then
    endAgarIoRoom gameId { room1 with winner := none } activeRoomIds freshPos
  else (room1, activeRoomIds, [])

/-- Finiteness of a bullet's numeric state: finite position, velocity and
traveled distance, and a range limit that is a finite number or `Infinity`. -/
def finiteBullet (b : ABullet) : Bool :=
  isNum b.x && isNum b.y && isNum b.vx && isNum b.vy && isNum b.traveled
    && (isNum b.rangeLimit || b.rangeLimit == JNum.inf)

/-- The bullet's position lies within world bounds. -/
def inBounds (b : ABullet) : Bool :=
  jle (JNum.num 0) b.x && jle b.x (JNum.num WORLD_SIZE)
    && jle (JNum.num 0) b.y && jle b.y (JNum.num WORLD_SIZE)

/-- The bullet's traveled distance is under its range limit (trivially so for
an unlimited-range bullet). -/
def underRangeLimit (b : ABullet) : Bool :=
  b.rangeLimit == JNum.inf || jlt b.traveled b.rangeLimit

/-- The boundedness property claimed for every bullet left after a tick. -/
def bulletBounded (b : ABullet) : Bool :=
  inBounds b && underRangeLimit b

/-!
## Lemmas about the lobby room maps
-/

/-- 1 if the room is empty, else 0. -/
def emptyBit (r : Room) : Nat := if isEmptyRoom r then 1 else 0

theorem countEmpty_nil : countEmpty [] = 0 := rfl

theorem countEmpty_cons (x : Room) (xs : List Room) :
    countEmpty (x :: xs) = emptyBit x + countEmpty xs := by
  by_cases h : isEmptyRoom x <;> simp [countEmpty, List.filter_cons, h, emptyBit] <;> omega

theorem countEmpty_pruneEmpties_true (l : List Room) :
    countEmpty (pruneEmpties true l) = 0 := by
  induction l with
  | nil => rfl
  | cons x xs ih =>
      by_cases h : isEmptyRoom x <;> simp [pruneEmpties, h, countEmpty_cons, emptyBit, ih]

theorem countEmpty_pruneEmpties_false (l : List Room) (h : 1 ≤ countEmpty l) :
    countEmpty (pruneEmpties false l) = 1 := by
  induction l with
  | nil => simp [countEmpty] at h
  | cons x xs ih =>
      by_cases hx : isEmptyRoom x
      · simp [pruneEmpties, hx, countEmpty_cons, emptyBit, countEmpty_pruneEmpties_true]
      · rw [countEmpty_cons] at h
        simp [emptyBit, hx] at h
        simp [pruneEmpties, hx, countEmpty_cons, emptyBit, ih h]

theorem countEmpty_setRoom_fresh (l : List Room) (r : Room)
    (hl : countEmpty l = 0) (hr : isEmptyRoom r = true) :
    countEmpty (setRoom l r) = 1 := by
  induction l with
  | nil => simp [setRoom, countEmpty_cons, emptyBit, hr, countEmpty]
  | cons x xs ih =>
      rw [countEmpty_cons] at hl
      have hx : isEmptyRoom x = false := by
        rcases hb : isEmptyRoom x with _ | _
        · rfl
        · simp [emptyBit, hb] at hl
      have hxs : countEmpty xs = 0 := by
        simp [emptyBit, hx] at hl; exact hl
      by_cases hid : x.id == r.id
      · simp [setRoom, hid, countEmpty_cons, emptyBit, hr, hx, hxs]
      · simp [setRoom, hid, countEmpty_cons, emptyBit, hx, ih hxs]

theorem countEmpty_ensureSingleEmptyRoom (l : List Room) (f : Nat) :
    countEmpty (ensureSingleEmptyRoom l f) = 1 := by
  by_cases h : ((l.filter isEmptyRoom).isEmpty : Bool)
  · have h0 : countEmpty l = 0 := by
      simpa [countEmpty, List.isEmpty_iff_length_eq_zero] using h
    simp only [ensureSingleEmptyRoom, h, if_pos]
    exact countEmpty_setRoom_fresh l (mkEmptyRoom f) h0 rfl
  · have h1 : 1 ≤ countEmpty l := by
      rcases Nat.eq_zero_or_pos (countEmpty l) with h0 | h0
      · exact absurd (by simpa [countEmpty, List.isEmpty_iff_length_eq_zero] using h0) h
      · exact h0
    simp only [ensureSingleEmptyRoom, h, if_neg, Bool.false_eq_true, not_false_iff]
    exact countEmpty_pruneEmpties_false l h1

theorem findRoom_id {l : List Room} {i : Nat} {r : Room}
    (h : findRoom l i = some r) : r.id = i := by
  have := List.find?_some h
  simpa using this

theorem countEmpty_setRoom_found {l : List Room} {i : Nat} {r : Room} (r' : Room)
    (h : findRoom l i = some r) (h' : r'.id = i) :
    countEmpty (setRoom l r') + emptyBit r = countEmpty l + emptyBit r' := by
  induction l with
  | nil => simp [findRoom] at h
  | cons x xs ih =>
      by_cases hx : x.id == i
      · have hr : r = x := by
          simp [findRoom, List.find?_cons_of_pos, hx] at h
          exact h.symm
        have hxr' : (x.id == r'.id) = true := by
          rw [h']; exact hx
        subst hr
        simp [setRoom, hxr', countEmpty_cons]
        omega
      · have htail : findRoom xs i = some r := by
          simpa [findRoom, List.find?_cons_of_neg, hx] using h
        have hxr' : (x.id == r'.id) = false := by
          rw [h']; simpa using hx
        simp [setRoom, hxr', countEmpty_cons, Nat.add_assoc]
        have := ih htail
        omega

theorem countEmpty_eraseRoom_found {l : List Room} {i : Nat} {r : Room}
    (h : findRoom l i = some r) :
    countEmpty (eraseRoom l i) + emptyBit r = countEmpty l := by
  induction l with
  | nil => simp [findRoom] at h
  | cons x xs ih =>
      by_cases hx : x.id == i
      · have hr : r = x := by
          simp [findRoom, List.find?_cons_of_pos, hx] at h
          exact h.symm
        subst hr
        simp [eraseRoom, hx, countEmpty_cons]
        omega
      · have htail : findRoom xs i = some r := by
          simpa [findRoom, List.find?_cons_of_neg, hx] using h
        simp [eraseRoom, hx, countEmpty_cons]
        have := ih htail
        omega

theorem findRoom_setRoom_self (l : List Room) {r : Room} {i : Nat} (h : r.id = i) :
    findRoom (setRoom l r) i = some r := by
  induction l with
  | nil => simp [setRoom, findRoom, List.find?_cons_of_pos, h]
  | cons x xs ih =>
      by_cases hx : x.id == r.id
      · have hs : setRoom (x :: xs) r = r :: xs := by simp [setRoom, hx]
        rw [hs]
        exact List.find?_cons_of_pos _ (by simp [h])
      · have hxi : (x.id == i) = false := by
          subst h; simpa using hx
        have hs : setRoom (x :: xs) r = x :: setRoom xs r := by simp [setRoom, hx]
        rw [hs, findRoom, List.find?_cons_of_neg _ (by simp [hxi])]
        exact ih

theorem findRoom_cons_pos {x : Room} {i : Nat} (xs : List Room)
    (h : (x.id == i) = true) : findRoom (x :: xs) i = some x := by
  simp [findRoom, List.find?_cons, h]

theorem findRoom_cons_neg {x : Room} {i : Nat} (xs : List Room)
    (h : (x.id == i) = false) : findRoom (x :: xs) i = findRoom xs i := by
  simp [findRoom, List.find?_cons, h]

theorem findRoom_pruneEmpties {l : List Room} {i : Nat} {r : Room}
    (h : findRoom l i = some r) (hne : isEmptyRoom r = false) (seen : Bool) :
    findRoom (pruneEmpties seen l) i = some r := by
  induction l generalizing seen with
  | nil => simp [findRoom] at h
  | cons x xs ih =>
      rcases hx : (x.id == i) with _ | _
      · have htail : findRoom xs i = some r := by
          rwa [findRoom_cons_neg xs hx] at h
        by_cases hxe : isEmptyRoom x
        · cases seen with
          | true =>
              simpa [pruneEmpties, hxe] using ih htail true
          | false =>
              simp only [pruneEmpties, hxe, if_true, if_false, Bool.false_eq_true]
              rw [findRoom_cons_neg _ hx]
              exact ih htail true
        · have hxe' : isEmptyRoom x = false := by simpa using hxe
          simp only [pruneEmpties, hxe', Bool.false_eq_true, if_false]
          rw [findRoom_cons_neg _ hx]
          exact ih htail seen
      · have hr : x = r := by
          rw [findRoom_cons_pos xs hx] at h
          exact Option.some_inj.mp h
        have hxe : isEmptyRoom x = false := hr ▸ hne
        simp only [pruneEmpties, hxe, Bool.false_eq_true, if_false]
        rw [findRoom_cons_pos _ hx, hr]

theorem findRoom_setRoom_other {l : List Room} {i : Nat} {r : Room} (r' : Room)
    (h : findRoom l i = some r) (hne : (r'.id == i) = false) :
    findRoom (setRoom l r') i = some r := by
  induction l with
  | nil => simp [findRoom] at h
  | cons x xs ih =>
      by_cases hx : x.id == r'.id
      · have hxi : (x.id == i) = false := by
          have hx' : x.id = r'.id := by simpa using hx
          rw [hx']; exact hne
        have htail : findRoom xs i = some r := by
          simpa [findRoom, List.find?_cons_of_neg, hxi] using h
        have hs : setRoom (x :: xs) r' = r' :: xs := by simp [setRoom, hx]
        rw [hs, findRoom, List.find?_cons_of_neg _ (by simp [hne])]
        exact htail
      · have hs : setRoom (x :: xs) r' = x :: setRoom xs r' := by simp [setRoom, hx]
        by_cases hxi : x.id == i
        · have hr : r = x := by
            simp [findRoom, List.find?_cons_of_pos, hxi] at h
            exact h.symm
          subst hr
          rw [hs]
          exact List.find?_cons_of_pos _ hxi
        · have htail : findRoom xs i = some r := by
            simpa [findRoom, List.find?_cons_of_neg, hxi] using h
          rw [hs, findRoom, List.find?_cons_of_neg _ (by simpa using hxi)]
          exact ih htail

theorem findRoom_ensureSingleEmptyRoom {l : List Room} {i : Nat} {r : Room}
    (h : findRoom l i = some r) (hne : isEmptyRoom r = false) {f : Nat}
    (hf : (f == i) = false) :
    findRoom (ensureSingleEmptyRoom l f) i = some r := by
  by_cases hfe : ((l.filter isEmptyRoom).isEmpty : Bool)
  · simp only [ensureSingleEmptyRoom, hfe, if_pos]
    exact findRoom_setRoom_other (mkEmptyRoom f) h (by simpa [mkEmptyRoom] using hf)
  · simp only [ensureSingleEmptyRoom, hfe, Bool.false_eq_true, if_neg, not_false_iff]
    exact findRoom_pruneEmpties h hne false

theorem eraseRoom_all_not_id {l : List Room} {i : Nat} {r : Room}
    (hnd : (l.map Room.id).Nodup) (h : findRoom l i = some r) :
    (eraseRoom l i).all (fun x => !(x.id == i)) = true := by
  induction l with
  | nil => simp [findRoom] at h
  | cons x xs ih =>
      rw [List.map_cons, List.nodup_cons] at hnd
      rcases hx : (x.id == i) with _ | _
      · have htail : findRoom xs i = some r := by
          rwa [findRoom_cons_neg xs hx] at h
        simp only [eraseRoom, hx, Bool.false_eq_true, if_false, List.all_cons,
          Bool.and_eq_true, Bool.not_eq_true']
        exact ⟨trivial, ih hnd.2 htail⟩
      · have hx' : x.id = i := by simpa using hx
        simp only [eraseRoom, hx, if_true, List.all_eq_true]
        intro y hy
        have hyx : y.id ≠ x.id := by
          intro hcon
          exact hnd.1 (hcon ▸ List.mem_map_of_mem Room.id hy)
        simp only [Bool.not_eq_true', beq_eq_false_iff_ne, ne_eq]
        intro hcon
        exact hyx (by rw [hcon, hx'])

theorem isEmptyRoom_append_player (room : Room) (p : Player) :
    isEmptyRoom { room with players := room.players ++ [p] } = false := by
  simp [isEmptyRoom]

theorem joinRoom_preserves_single_empty (rooms : List Room)
    (roomId sockId : Nat) (userName : String) (newRoomId : Nat)
    (h1 : countEmpty rooms = 1) :
    countEmpty (joinRoom rooms roomId sockId userName newRoomId) = 1 := by
  rw [joinRoom]
  cases hfind : findRoom rooms roomId with
  | none => exact h1
  | some room =>
      by_cases hmem : room.players.any (fun p => p.socketId == sockId)
      · simp only [hmem, if_true]
        exact h1
      · have hmem' : room.players.any (fun p => p.socketId == sockId) = false := by
          simpa using hmem
        simp only [hmem', Bool.false_eq_true, if_false]
        have hidr : room.id = roomId := findRoom_id hfind
        have hset := countEmpty_setRoom_found
          { room with players := room.players ++ [mkPlayer sockId userName] } hfind hidr
        have hb' : emptyBit { room with players := room.players ++ [mkPlayer sockId userName] } = 0 := by
          simp [emptyBit, isEmptyRoom_append_player]
        by_cases hre : isEmptyRoom room
        · have hnil : room.players = [] := by
            simpa [isEmptyRoom, List.isEmpty_iff] using hre
        -- the room just gained its first player: ensureSingleEmptyRoom runs
          have hlen : ((room.players ++ [mkPlayer sockId userName]).length == 1) = true := by
            simp [hnil]
          simp only [hlen, if_true]
          exact countEmpty_ensureSingleEmptyRoom _ _
        · have hre' : isEmptyRoom room = false := by simpa using hre
          have hnnil : room.players ≠ [] := by
            simpa [isEmptyRoom, List.isEmpty_iff] using hre
          have hpos : 0 < room.players.length := List.length_pos.mpr hnnil
          have hlen : ((room.players ++ [mkPlayer sockId userName]).length == 1) = false := by
            simp only [List.length_append, List.length_cons, List.length_nil, beq_eq_false_iff_ne,
              ne_eq]
            omega
          simp only [hlen, Bool.false_eq_true, if_false]
          rw [hb', emptyBit, hre'] at hset
          simpa [h1] using hset

theorem leaveRoom_preserves_single_empty (rooms : List Room) (roomId sockId : Nat)
    (h1 : countEmpty rooms = 1) :
    countEmpty (leaveRoom rooms roomId sockId) = 1 := by
  rw [leaveRoom]
  cases hfind : findRoom rooms roomId with
  | none => exact h1
  | some room =>
      have hidr : room.id = roomId := findRoom_id hfind
      have hid' : (Room.mk room.id room.name room.maxPlayers
          (room.players.filter (fun p => !(p.socketId == sockId))) room.isActive
          room.playedCards room.currentPlayerIndex room.currentPlayerSocketId room.winner).id
            = roomId := hidr
      have hset := countEmpty_setRoom_found
        { room with players := room.players.filter (fun p => !(p.socketId == sockId)) } hfind hid'
      by_cases hpe : (room.players.filter (fun p => !(p.socketId == sockId))).isEmpty
      · by_cases hre : isEmptyRoom room
        · -- the room was already empty: still exactly one empty room, no deletion
          have hb : emptyBit room = 1 := by simp [emptyBit, hre]
          have hb' : emptyBit { room with
              players := room.players.filter (fun p => !(p.socketId == sockId)) } = 1 := by
            simp [emptyBit, isEmptyRoom, hpe]
          have hcnt : countEmpty (setRoom rooms { room with
              players := room.players.filter (fun p => !(p.socketId == sockId)) }) = 1 := by
            rw [hb, hb'] at hset; omega
          simp only [hpe, Bool.true_and, hcnt]
          exact hcnt
        · -- a second empty room appeared: the newly emptied room is deleted again
          have hre' : isEmptyRoom room = false := by simpa using hre
          have hb : emptyBit room = 0 := by simp [emptyBit, hre']
          have hb' : emptyBit { room with
              players := room.players.filter (fun p => !(p.socketId == sockId)) } = 1 := by
            simp [emptyBit, isEmptyRoom, hpe]
          have hcnt : countEmpty (setRoom rooms { room with
              players := room.players.filter (fun p => !(p.socketId == sockId)) }) = 2 := by
            rw [hb, hb'] at hset; omega
          have hself := findRoom_setRoom_self rooms
            (r := { room with players := room.players.filter (fun p => !(p.socketId == sockId)) })
            (i := roomId) hid'
          have herase := countEmpty_eraseRoom_found hself
          rw [hcnt, hb'] at herase
          simp only [hpe, Bool.true_and, hcnt]
          simpa using herase
      · -- the room still has players: no counting change, no deletion
        have hpe' : (room.players.filter (fun p => !(p.socketId == sockId))).isEmpty = false := by
          simpa using hpe
        have hre' : isEmptyRoom room = false := by
          rcases hb : isEmptyRoom room with _ | _
          · rfl
          · have : room.players = [] := by simpa [isEmptyRoom, List.isEmpty_iff] using hb
            rw [this] at hpe'
            simp at hpe'
        have hb : emptyBit room = 0 := by simp [emptyBit, hre']
        have hb' : emptyBit { room with
            players := room.players.filter (fun p => !(p.socketId == sockId)) } = 0 := by
          simp [emptyBit, isEmptyRoom, hpe']
        have hcnt : countEmpty (setRoom rooms { room with
            players := room.players.filter (fun p => !(p.socketId == sockId)) }) = 1 := by
          rw [hb, hb'] at hset; omega
        simp only [hpe', Bool.false_and, Bool.false_eq_true, if_false]
        exact hcnt

/-- C1: For every game type, after any join-room or leave-room operation
completes, the lobby-room map contains exactly one room with zero players:
`ensureSingleEmptyRoom` always leaves exactly one empty room (deleting
duplicates, creating a fresh room if none exist), and — whenever the map
already satisfies the invariant — both `joinRoom` (which re-invokes
`ensureSingleEmptyRoom` when a room gains its first player) and `leaveRoom`
(which deletes a newly emptied room only when more than one empty room
exists) preserve it. -/
theorem C1_single_empty_lobby_room :
    (∀ (rooms : List Room) (newRoomId : Nat),
        countEmpty (ensureSingleEmptyRoom rooms newRoomId) = 1) ∧
    (∀ (rooms : List Room) (roomId sockId : Nat) (userName : String) (newRoomId : Nat),
        countEmpty rooms = 1 →
        countEmpty (joinRoom rooms roomId sockId userName newRoomId) = 1) ∧
    (∀ (rooms : List Room) (roomId sockId : Nat),
        countEmpty rooms = 1 →
        countEmpty (leaveRoom rooms roomId sockId) = 1) :=
  ⟨countEmpty_ensureSingleEmptyRoom,
   joinRoom_preserves_single_empty,
   leaveRoom_preserves_single_empty⟩

/-- Concrete instance of the C1 invariant: a lobby with one occupied room and
one empty room, exercised through a join into each kind of room and a
leave. -/
theorem C1_single_empty_lobby_room_witness :
    countEmpty (ensureSingleEmptyRoom
      [{ id := 1, players := [{ socketId := 5, userName := "a" }] }] 9) = 1 ∧
    countEmpty (joinRoom
      [{ id := 1, players := [{ socketId := 5, userName := "a" }] }, { id := 2 }]
      2 6 "b" 9) = 1 ∧
    countEmpty (leaveRoom
      [{ id := 1, players := [{ socketId := 5, userName := "a" }] }, { id := 2 }]
      1 5) = 1 :=
  ⟨C1_single_empty_lobby_room.1 _ 9,
   C1_single_empty_lobby_room.2.1 _ 2 6 "b" 9 (by decide),
   C1_single_empty_lobby_room.2.2 _ 1 5 (by decide)⟩

/-- C10: the `joinRoom` handler never consults `maxPlayers`: whenever the
room exists and the connection is not already seated, a new player is
appended unconditionally, so a room that already holds `maxPlayers` (or
more) players still grows by one and exceeds its declared capacity. -/
theorem C10_joinRoom_ignores_maxPlayers (rooms : List Room)
    (roomId sockId : Nat) (userName : String) (newRoomId : Nat) (room : Room)
    (hfind : findRoom rooms roomId = some room)
    (hnew : room.players.any (fun p => p.socketId == sockId) = false)
    (hfresh : (newRoomId == roomId) = false) :
    (findRoom (joinRoom rooms roomId sockId userName newRoomId) roomId).map Room.players
      = some (room.players ++ [mkPlayer sockId userName]) ∧
    (room.maxPlayers ≤ room.players.length →
      room.maxPlayers < (room.players ++ [mkPlayer sockId userName]).length) := by
  constructor
  · rw [joinRoom, hfind]
    simp only [hnew, Bool.false_eq_true, if_false]
    have hidr : room.id = roomId := findRoom_id hfind
    have hself := findRoom_setRoom_self rooms
      (r := { room with players := room.players ++ [mkPlayer sockId userName] })
      (i := roomId) hidr
    by_cases hlen : ((room.players ++ [mkPlayer sockId userName]).length == 1)
    · simp only [hlen, if_true]
      have hkept := findRoom_ensureSingleEmptyRoom hself
        (isEmptyRoom_append_player room (mkPlayer sockId userName))
        (f := newRoomId) (by simpa [mkEmptyRoom] using hfresh)
      rw [hkept]
      rfl
    · have hlen' : ((room.players ++ [mkPlayer sockId userName]).length == 1) = false := by
        simpa using hlen
      simp only [hlen', Bool.false_eq_true, if_false]
      rw [hself]
      rfl
  · intro hfull
    simp only [List.length_append, List.length_cons, List.length_nil]
    omega

/-- A room already holding `maxPlayers = 4` players, for the C10 witness. -/
def fullRoom : Room :=
  { id := 1, maxPlayers := 4, players :=
      [{ socketId := 1, userName := "a" }, { socketId := 2, userName := "b" },
       { socketId := 3, userName := "c" }, { socketId := 4, userName := "d" }] }

/-- Concrete instance of C10: a full room (4/4 of `maxPlayers = 4`) still
accepts a fifth player. -/
theorem C10_joinRoom_ignores_maxPlayers_witness :
    (findRoom (joinRoom [fullRoom] 1 5 "e" 9) 1).map Room.players
      = some (fullRoom.players ++ [mkPlayer 5 "e"]) ∧
    (fullRoom.maxPlayers ≤ fullRoom.players.length →
      fullRoom.maxPlayers < (fullRoom.players ++ [mkPlayer 5 "e"]).length) :=
  C10_joinRoom_ignores_maxPlayers [fullRoom] 1 5 "e" 9 fullRoom
    (by decide) (by decide) (by decide)

/-!
## Countdown lemmas and claims C2 / C7
-/

theorem startBiggestTomatoRoom_id (room : Room) (deck : List String) :
    (startBiggestTomatoRoom room deck).id = room.id := by
  rw [startBiggestTomatoRoom]
  by_cases h : room.players.isEmpty <;> simp [h]

theorem startBiggestTomatoRoom_isActive (room : Room) (deck : List String) :
    (startBiggestTomatoRoom room deck).isActive = room.isActive := by
  rw [startBiggestTomatoRoom]
  by_cases h : room.players.isEmpty <;> simp [h]

theorem startCountdown_eq (g : GState) (roomId : Nat) (deck : List String) :
    startCountdown g roomId deck =
      ((countdownTransition g roomId deck).1,
       [TEv.countdownUpdate roomId 9, TEv.countdownUpdate roomId 8,
        TEv.countdownUpdate roomId 7, TEv.countdownUpdate roomId 6,
        TEv.countdownUpdate roomId 5, TEv.countdownUpdate roomId 4,
        TEv.countdownUpdate roomId 3, TEv.countdownUpdate roomId 2,
        TEv.countdownUpdate roomId 1, TEv.countdownUpdate roomId 0]
         ++ (countdownTransition g roomId deck).2) := rfl

/-- C2 (amended): once the countdown for an existing lobby room runs, the
room channel receives exactly ten `countdownUpdate` broadcasts whose
`secondsRemaining` values count down from 9 to 0 (the counter is decremented
before each emission, so 10 itself is never broadcast); at 0 the interval is
cancelled (no event follows the transition), the room is moved from the
lobby map to the active map with `isActive = true`, the engine's start
routine runs (card-duel instance: `startBiggestTomatoRoom`) and the freshly
initialized match state is broadcast. -/
theorem C2_countdown_sequence_and_transition (g : GState) (roomId : Nat)
    (deck : List String) (room : Room)
    (hfind : findRoom g.rooms roomId = some room)
    (hnd : (g.rooms.map Room.id).Nodup) :
    (startCountdown g roomId deck).2 =
      [TEv.countdownUpdate roomId 9, TEv.countdownUpdate roomId 8,
       TEv.countdownUpdate roomId 7, TEv.countdownUpdate roomId 6,
       TEv.countdownUpdate roomId 5, TEv.countdownUpdate roomId 4,
       TEv.countdownUpdate roomId 3, TEv.countdownUpdate roomId 2,
       TEv.countdownUpdate roomId 1, TEv.countdownUpdate roomId 0,
       TEv.gameStart roomId,
       TEv.gameStateUpdate (broadcastGameState roomId
         (startBiggestTomatoRoom { room with isActive := true } deck))] ∧
    countdownValues (startCountdown g roomId deck).2
      = [9, 8, 7, 6, 5, 4, 3, 2, 1, 0] ∧
    ((startCountdown g roomId deck).1.rooms.all (fun r => !(r.id == roomId))) = true ∧
    findRoom (startCountdown g roomId deck).1.activeRooms roomId
      = some (startBiggestTomatoRoom { room with isActive := true } deck) ∧
    (startBiggestTomatoRoom { room with isActive := true } deck).isActive = true := by
  have hids : (startBiggestTomatoRoom { room with isActive := true } deck).id = roomId := by
    rw [startBiggestTomatoRoom_id]
    show room.id = roomId
    exact findRoom_id hfind
  refine ⟨?_, ?_, ?_, ?_, ?_⟩
  · rw [startCountdown_eq]
    simp only [countdownTransition, hfind]
    rfl
  · rw [startCountdown_eq]
    simp only [countdownTransition, hfind, countdownValues, List.filterMap_append]
    rfl
  · rw [startCountdown_eq]
    simp only [countdownTransition, hfind]
    exact eraseRoom_all_not_id hnd hfind
  · rw [startCountdown_eq]
    simp only [countdownTransition, hfind]
    exact findRoom_setRoom_self _ hids
  · rw [startBiggestTomatoRoom_isActive]

/-- Lobby state for the C2 countdown runs: one room with two seated
players. -/
def c2Game : GState :=
  { rooms := [{ id := 7, players :=
      [{ socketId := 1, userName := "a", isReady := true },
       { socketId := 2, userName := "b", isReady := true }] }]
    activeRooms := [] }

/-- C2 as frozen is false on the code: the countdown broadcasts carry
`secondsRemaining` 9 down to 0 — the value 10 is never broadcast, because
`countdown--` runs before each emission. -/
theorem C2_countdown_never_broadcasts_ten :
    countdownValues (startCountdown c2Game 7 rankOrder).2
      = [9, 8, 7, 6, 5, 4, 3, 2, 1, 0] ∧
    10 ∉ countdownValues (startCountdown c2Game 7 rankOrder).2 := by
  decide

/-- Concrete instance of the amended C2 on `c2Game`. -/
theorem C2_countdown_sequence_and_transition_witness :
    countdownValues (startCountdown c2Game 7 rankOrder).2
      = [9, 8, 7, 6, 5, 4, 3, 2, 1, 0] ∧
    ((startCountdown c2Game 7 rankOrder).1.rooms.all (fun r => !(r.id == 7))) = true ∧
    findRoom (startCountdown c2Game 7 rankOrder).1.activeRooms 7
      = some (startBiggestTomatoRoom
          { (c2Game.rooms.head (by decide)) with isActive := true } rankOrder) ∧
    (startBiggestTomatoRoom
      { (c2Game.rooms.head (by decide)) with isActive := true } rankOrder).isActive = true := by
  have h := C2_countdown_sequence_and_transition c2Game 7 rankOrder
    (c2Game.rooms.head (by decide)) (by decide) (by decide)
  exact ⟨h.2.1, h.2.2.1, h.2.2.2.1, h.2.2.2.2⟩

/-- Lobby room with a single seated player, for the double-countdown runs. -/
def c7Room : Room := { id := 7, players := [{ socketId := 1, userName := "solo" }] }

/-- C7 is false on the code: `startCountdown` keeps its interval handle in a
local constant and never cancels a previous countdown, so a second
all-players-ready `toggleReady` on the same room registers a second,
concurrently firing countdown interval (here: two live intervals for room 7
after two ready toggles by its lone player). -/
theorem C7_second_countdown_not_cancelled :
    (toggleReady { rooms := [c7Room], countdownTimers := [] } 7 1 true).countdownTimers
      = [7] ∧
    (toggleReady (toggleReady { rooms := [c7Room], countdownTimers := [] } 7 1 true)
        7 1 true).countdownTimers = [7, 7] := by
  decide

/-!
## Card-duel lemmas and claims C3 / C4 / C9
-/

theorem find?_updateFirstPlayer (ps : List Player) (sockId : Nat) (f : Player → Player)
    (hf : ∀ p, (f p).socketId = p.socketId) :
    (updateFirstPlayer ps sockId f).find? (fun p => p.socketId == sockId)
      = (ps.find? (fun p => p.socketId == sockId)).map f := by
  induction ps with
  | nil => rfl
  | cons p ps ih =>
      by_cases hp : (p.socketId == sockId)
      · have hp' : ((f p).socketId == sockId) = true := by
          rw [hf p]; exact hp
        simp only [updateFirstPlayer, hp, if_true, List.find?_cons, hp']
        rfl
      · have hp' : (p.socketId == sockId) = false := by simpa using hp
        simp only [updateFirstPlayer, hp', Bool.false_eq_true, if_false, List.find?_cons, hp']
        exact ih

theorem nextAliveScan_players (room : Room) (fuel idx : Nat) :
    (nextAliveScan room fuel idx).players = room.players := by
  induction fuel generalizing idx with
  | zero => rfl
  | succ n ih =>
      rw [nextAliveScan]
      cases room.players[idx]? with
      | none => rfl
      | some candidate =>
          by_cases hc : candidate.isDead <;> simp [hc, ih]

theorem nextAliveScan_playedCards (room : Room) (fuel idx : Nat) :
    (nextAliveScan room fuel idx).playedCards = room.playedCards := by
  induction fuel generalizing idx with
  | zero => rfl
  | succ n ih =>
      rw [nextAliveScan]
      cases room.players[idx]? with
      | none => rfl
      | some candidate =>
          by_cases hc : candidate.isDead <;> simp [hc, ih]

theorem nextAliveScan_id (room : Room) (fuel idx : Nat) :
    (nextAliveScan room fuel idx).id = room.id := by
  induction fuel generalizing idx with
  | zero => rfl
  | succ n ih =>
      rw [nextAliveScan]
      cases room.players[idx]? with
      | none => rfl
      | some candidate =>
          by_cases hc : candidate.isDead <;> simp [hc, ih]

theorem indexOf?_of_mem {α : Type} [BEq α] [LawfulBEq α] {l : List α} {a : α}
    (h : a ∈ l) : l.indexOf? a = some (l.indexOf a) := by
  induction l with
  | nil => simp at h
  | cons x xs ih =>
      by_cases hx : (x == a)
      · simp [List.indexOf?_cons, List.indexOf_cons, hx]
      · have hx' : (x == a) = false := by simpa using hx
        have hmem : a ∈ xs := by
          rcases List.mem_cons.mp h with h1 | h1
          · rw [h1] at hx'
            simp at hx'
          · exact h1
        simp [List.indexOf?_cons, List.indexOf_cons, hx', ih hmem]

theorem jsIndexOf_of_mem {l : List String} {s : String} (h : s ∈ l) :
    jsIndexOf l s = (l.indexOf s : Int) := by
  rw [jsIndexOf, indexOf?_of_mem h]

theorem not_compareCards_iff {cardA cardB : String}
    (ha : cardA ∈ rankOrder) (hb : cardB ∈ rankOrder) :
    (!compareCards cardA cardB)
      = decide (rankOrder.indexOf cardA ≤ rankOrder.indexOf cardB) := by
  rw [compareCards, jsIndexOf_of_mem ha, jsIndexOf_of_mem hb]
  by_cases hle : rankOrder.indexOf cardA ≤ rankOrder.indexOf cardB
  · have : ¬ ((rankOrder.indexOf cardA : Int) > (rankOrder.indexOf cardB : Int)) := by
      simp only [gt_iff_lt, not_lt]
      exact_mod_cast hle
    simp [this, hle]
  · have : (rankOrder.indexOf cardA : Int) > (rankOrder.indexOf cardB : Int) := by
      simp only [gt_iff_lt]
      exact_mod_cast Nat.lt_of_not_le hle
    simp [this, hle]

theorem map_id_setRoom {l : List Room} {i : Nat} {r : Room} (r' : Room)
    (h : findRoom l i = some r) (h' : r'.id = i) :
    (setRoom l r').map Room.id = l.map Room.id := by
  induction l with
  | nil => simp [findRoom] at h
  | cons x xs ih =>
      by_cases hx : (x.id == r'.id)
      · have hs : setRoom (x :: xs) r' = r' :: xs := by simp [setRoom, hx]
        rw [hs, List.map_cons, List.map_cons]
        have : x.id = r'.id := by simpa using hx
        rw [this]
      · have hs : setRoom (x :: xs) r' = x :: setRoom xs r' := by simp [setRoom, hx]
        have hxi : (x.id == i) = false := by
          rcases hb : (x.id == i) with _ | _
          · rfl
          · have : x.id = i := by simpa using hb
            rw [this, ← h'] at hx
            simp at hx
        have htail : findRoom xs i = some r := by
          rwa [findRoom_cons_neg xs hxi] at h
        rw [hs, List.map_cons, List.map_cons, ih htail]

theorem playCardStep_id (room : Room) (sockId : Nat) (card : String) :
    (playCardStep room sockId card).id = room.id := by
  rw [playCardStep]
  simp [nextAlivePlayer, nextAliveScan_id]

theorem eraseRoom_all_not_id' {l : List Room} {i : Nat} {r : Room}
    (hnd : (l.map Room.id).Nodup) (h : findRoom l i = some r) {j : Nat} (hj : j = i) :
    (eraseRoom l j).all (fun x => !(x.id == i)) = true := by
  subst hj
  exact eraseRoom_all_not_id hnd h


/-- C3: for a valid in-turn play over a nonempty play history, the acting
player ends up eliminated exactly when the new card's rank position in the
fixed order `A < 2 < ... < 10 < J < Q < K` is not strictly greater than the
last played card's; the card is appended to `playedCards` and filtered out
of the hand regardless; and when at most one player is left alive the
handler emits a single `gameOver` broadcast whose winner is the lone
survivor's id (or null when none survive) and removes the room from the
active map. -/
theorem C3_playCard_valid_move (g : GState) (roomId sockId : Nat) (card : String)
    (room : Room) (player : Player) (lastCard : String)
    (hroom : findRoom g.activeRooms roomId = some room)
    (hnd : (g.activeRooms.map Room.id).Nodup)
    (hturn : (sockId == room.currentPlayerSocketId) = true)
    (hplayer : room.players.find? (fun p => p.socketId == sockId) = some player)
    (halive : player.isDead = false)
    (hhand : card ∈ player.cards)
    (hlast : room.playedCards.getLast? = some lastCard)
    (hcardrank : card ∈ rankOrder) (hlastrank : lastCard ∈ rankOrder) :
    ((playCardStep room sockId card).players.find?
        (fun p => p.socketId == sockId)).map Player.isDead
      = some (decide (rankOrder.indexOf card ≤ rankOrder.indexOf lastCard)) ∧
    (playCardStep room sockId card).playedCards = room.playedCards ++ [card] ∧
    ((playCardStep room sockId card).players.find?
        (fun p => p.socketId == sockId)).map Player.cards
      = some (player.cards.filter (fun c => !(c == card))) ∧
    (((playCardStep room sockId card).players.filter (fun p => !p.isDead)).length ≤ 1 →
      (handlePlayCard g roomId sockId card).2
        = [TEv.gameOver (((playCardStep room sockId card).players.filter
            (fun p => !p.isDead)).head?.map Player.socketId)] ∧
      ((handlePlayCard g roomId sockId card).1.activeRooms.all
          (fun r => !(r.id == roomId))) = true) := by
  have hstep : playCardStep room sockId card
      = nextAlivePlayer { room with
          players := updateFirstPlayer room.players sockId (fun p =>
            { p with
              isDead := if !compareCards card lastCard then true else p.isDead
              cards := p.cards.filter (fun c => !(c == card)) })
          playedCards := room.playedCards ++ [card] } := by
    rw [playCardStep, hlast]
  have hplayers : (playCardStep room sockId card).players
      = updateFirstPlayer room.players sockId (fun p =>
          { p with
            isDead := if !compareCards card lastCard then true else p.isDead
            cards := p.cards.filter (fun c => !(c == card)) }) := by
    rw [hstep, nextAlivePlayer, nextAliveScan_players]
  have hfindu := find?_updateFirstPlayer room.players sockId (fun p =>
      { p with
        isDead := if !compareCards card lastCard then true else p.isDead
        cards := p.cards.filter (fun c => !(c == card)) }) (fun p => rfl)
  have hfind2 : (playCardStep room sockId card).players.find?
      (fun p => p.socketId == sockId)
      = some { player with
          isDead := if !compareCards card lastCard then true else player.isDead
          cards := player.cards.filter (fun c => !(c == card)) } := by
    rw [hplayers, hfindu, hplayer]
    rfl
  refine ⟨?_, ?_, ?_, ?_⟩
  · rw [hfind2, halive, ← not_compareCards_iff hcardrank hlastrank]
    rcases hb : compareCards card lastCard with _ | _ <;> simp [hb]
  · rw [hstep, nextAlivePlayer, nextAliveScan_playedCards]
  · rw [hfind2]
    rfl
  · intro hle
    have hidr : room.id = roomId := findRoom_id hroom
    rw [handlePlayCard]
    simp only [hroom, hturn, hplayer, halive, Bool.not_true, Bool.false_eq_true, if_false,
      eq_self_iff_true, if_true]
    rw [if_pos hle]
    constructor
    · show [TEv.gameOver (if ((((playCardStep room sockId card).players.filter
            (fun p => !p.isDead)).length == 1))
          then (((playCardStep room sockId card).players.filter
              (fun p => !p.isDead)).head?.map Player.socketId)
          else none)]
        = [TEv.gameOver (((playCardStep room sockId card).players.filter
            (fun p => !p.isDead)).head?.map Player.socketId)]
      rcases hb : (((playCardStep room sockId card).players.filter
          (fun p => !p.isDead)).length == 1) with _ | _
      · have hlen : ((playCardStep room sockId card).players.filter
            (fun p => !p.isDead)).length ≠ 1 := by simpa using hb
        have h0 : ((playCardStep room sockId card).players.filter
            (fun p => !p.isDead)).length = 0 := by omega
        have hnil : ((playCardStep room sockId card).players.filter
            (fun p => !p.isDead)) = [] := List.length_eq_zero.mp h0
        rw [hnil]
        simp
      · simp
    · simp only [endBiggestTomatoRoom]
      have hid3 : ({ playCardStep room sockId card with
          winner := if ((((playCardStep room sockId card).players.filter
                (fun p => !p.isDead)).length == 1))
            then (((playCardStep room sockId card).players.filter
                (fun p => !p.isDead)).head?.map Player.socketId)
            else none } : Room).id = roomId := by
        show (playCardStep room sockId card).id = roomId
        rw [playCardStep_id]
        exact hidr
      have hmap := map_id_setRoom (l := g.activeRooms) (i := roomId) (r := room)
        ({ playCardStep room sockId card with
          winner := if ((((playCardStep room sockId card).players.filter
                (fun p => !p.isDead)).length == 1))
            then (((playCardStep room sockId card).players.filter
                (fun p => !p.isDead)).head?.map Player.socketId)
            else none }) hroom hid3
      have hnd' : ((setRoom g.activeRooms ({ playCardStep room sockId card with
          winner := if ((((playCardStep room sockId card).players.filter
                (fun p => !p.isDead)).length == 1))
            then (((playCardStep room sockId card).players.filter
                (fun p => !p.isDead)).head?.map Player.socketId)
            else none })).map Room.id).Nodup := by
        rw [hmap]; exact hnd
      have hself := findRoom_setRoom_self g.activeRooms hid3
      exact eraseRoom_all_not_id' hnd' hself hid3

/-- Active card-duel room for the C3 witness: player 1 (hand `["A"]`) is on
turn after a `"5"` was played. -/
def c3Room : Room :=
  { id := 7, isActive := true
    players := [{ socketId := 1, userName := "a", cards := ["A"] },
                { socketId := 2, userName := "b", cards := ["7"] }]
    playedCards := ["5"], currentPlayerIndex := 0, currentPlayerSocketId := 1 }

/-- Game state holding `c3Room` as an active room. -/
def c3Game : GState := { rooms := [], activeRooms := [c3Room] }

/-- Concrete instance of C3: player 1 answers a `"5"` with the lower `"A"`,
is eliminated, the card is recorded and removed, and the lone survivor
(player 2) wins while the room leaves the active map. -/
theorem C3_playCard_valid_move_witness :
    ((playCardStep c3Room 1 "A").players.find?
        (fun p => p.socketId == 1)).map Player.isDead
      = some (decide (rankOrder.indexOf "A" ≤ rankOrder.indexOf "5")) ∧
    (playCardStep c3Room 1 "A").playedCards = c3Room.playedCards ++ ["A"] ∧
    ((playCardStep c3Room 1 "A").players.find?
        (fun p => p.socketId == 1)).map Player.cards
      = some ((["A"] : List String).filter (fun c => !(c == "A"))) ∧
    (((playCardStep c3Room 1 "A").players.filter (fun p => !p.isDead)).length ≤ 1 →
      (handlePlayCard c3Game 7 1 "A").2
        = [TEv.gameOver (((playCardStep c3Room 1 "A").players.filter
            (fun p => !p.isDead)).head?.map Player.socketId)] ∧
      ((handlePlayCard c3Game 7 1 "A").1.activeRooms.all
          (fun r => !(r.id == 7))) = true) :=
  C3_playCard_valid_move c3Game 7 1 "A" c3Room
    { socketId := 1, userName := "a", cards := ["A"] } "5"
    (by decide) (by decide) (by decide) (by decide) (by decide) (by decide)
    (by decide) (by decide) (by decide)

theorem playCardStep_playedCards (room : Room) (sockId : Nat) (card : String) :
    (playCardStep room sockId card).playedCards = room.playedCards ++ [card] := by
  rw [playCardStep]
  simp [nextAlivePlayer, nextAliveScan_playedCards]

/-- C4 (amended): the `playCard` handler is a no-op (no state mutation, no
broadcast) when the sender is not the current-turn player, or the sending
player is missing or eliminated.  The third guard of the claim does not
exist in the code: nothing checks that the card is in the sender's hand, so
an in-turn play of a card the player does not hold is still fully processed —
the card is appended to the played-card record, the hand is left unchanged
(the filter removes nothing) and a broadcast is emitted. -/
theorem C4_playCard_guards (g : GState) (roomId sockId : Nat) (card : String)
    (room : Room) (hroom : findRoom g.activeRooms roomId = some room) :
    ((sockId == room.currentPlayerSocketId) = false →
      handlePlayCard g roomId sockId card = (g, [])) ∧
    ((sockId == room.currentPlayerSocketId) = true →
      room.players.find? (fun p => p.socketId == sockId) = none →
      handlePlayCard g roomId sockId card = (g, [])) ∧
    (∀ player : Player, (sockId == room.currentPlayerSocketId) = true →
      room.players.find? (fun p => p.socketId == sockId) = some player →
      player.isDead = true →
      handlePlayCard g roomId sockId card = (g, [])) ∧
    (∀ player : Player, (sockId == room.currentPlayerSocketId) = true →
      room.players.find? (fun p => p.socketId == sockId) = some player →
      player.isDead = false →
      card ∉ player.cards →
      (playCardStep room sockId card).playedCards = room.playedCards ++ [card] ∧
      ((playCardStep room sockId card).players.find?
          (fun p => p.socketId == sockId)).map Player.cards = some player.cards ∧
      (handlePlayCard g roomId sockId card).2 ≠ []) := by
  refine ⟨?_, ?_, ?_, ?_⟩
  · intro hturn
    rw [handlePlayCard]
    simp [hroom, hturn]
  · intro hturn hnone
    rw [handlePlayCard]
    simp [hroom, hturn, hnone]
  · intro player hturn hplayer hdead
    rw [handlePlayCard]
    simp [hroom, hturn, hplayer, hdead]
  · intro player hturn hplayer halive hnocard
    have hfilter : player.cards.filter (fun c => !(c == card)) = player.cards := by
      apply List.filter_eq_self.mpr
      intro c hc
      have : c ≠ card := fun hcc => hnocard (hcc ▸ hc)
      simpa using this
    refine ⟨playCardStep_playedCards room sockId card, ?_, ?_⟩
    · have hplayers : (playCardStep room sockId card).players
          = updateFirstPlayer room.players sockId (fun p =>
              { p with
                isDead := if (match room.playedCards.getLast? with
                              | some lastCard => !compareCards card lastCard
                              | none => false) then true else p.isDead
                cards := p.cards.filter (fun c => !(c == card)) }) := by
        rw [playCardStep, nextAlivePlayer, nextAliveScan_players]
      have hfindu := find?_updateFirstPlayer room.players sockId (fun p =>
          { p with
            isDead := if (match room.playedCards.getLast? with
                          | some lastCard => !compareCards card lastCard
                          | none => false) then true else p.isDead
            cards := p.cards.filter (fun c => !(c == card)) }) (fun p => rfl)
      rw [hplayers, hfindu, hplayer]
      simp only [Option.map]
      rw [hfilter]
    · rw [handlePlayCard]
      simp only [hroom, hturn, hplayer, halive, Bool.not_true, Bool.false_eq_true, if_false,
        eq_self_iff_true, if_true]
      by_cases hle : ((playCardStep room sockId card).players.filter
          (fun p => !p.isDead)).length ≤ 1
      · rw [if_pos hle]
        simp
      · rw [if_neg hle]
        simp

/-- Active card-duel room for the C4 counterexample: player 1 is on turn
with hand `["A"]` and no card has been played yet. -/
def c4Room : Room :=
  { id := 7, isActive := true
    players := [{ socketId := 1, userName := "a", cards := ["A"] },
                { socketId := 2, userName := "b", cards := ["7"] }]
    playedCards := [], currentPlayerIndex := 0, currentPlayerSocketId := 1 }

/-- Game state holding `c4Room` as an active room. -/
def c4Game : GState := { rooms := [], activeRooms := [c4Room] }

/-- C4 as frozen is false on the code: the current-turn player plays `"K"`,
which is not in their hand, yet the handler is not a no-op — the game state
changes (the card is appended to `playedCards` and the turn advances) and a
broadcast is emitted. -/
theorem C4_card_not_in_hand_still_processed :
    (handlePlayCard c4Game 7 1 "K").1 ≠ c4Game ∧
    (handlePlayCard c4Game 7 1 "K").2 ≠ [] := by
  decide

/-- Concrete instance of the amended C4 on `c4Game`: out-of-turn and
eliminated senders are dropped, while an in-turn play of the absent card
`"K"` is processed. -/
theorem C4_playCard_guards_witness :
    handlePlayCard c4Game 7 2 "7" = (c4Game, []) ∧
    ((playCardStep c4Room 1 "K").playedCards = c4Room.playedCards ++ ["K"] ∧
      ((playCardStep c4Room 1 "K").players.find?
          (fun p => p.socketId == 1)).map Player.cards = some ["A"] ∧
      (handlePlayCard c4Game 7 1 "K").2 ≠ []) :=
  ⟨(C4_playCard_guards c4Game 7 2 "7" c4Room (by decide)).1 (by decide),
   (C4_playCard_guards c4Game 7 1 "K" c4Room (by decide)).2.2.2
     { socketId := 1, userName := "a", cards := ["A"] }
     (by decide) (by decide) (by decide) (by decide)⟩

/-!
## Broadcast-payload lemmas and claim C9
-/

theorem secondToLast_eq_dropLast_getLast? (l : List String) :
    (if 2 ≤ l.length then l[l.length - 2]? else none) = l.dropLast.getLast? := by
  induction l using List.reverseRecOn with
  | nil => rfl
  | append_singleton xs x ih =>
      rw [List.dropLast_concat]
      by_cases hxs : xs = []
      · subst hxs; rfl
      · have hlen : 1 ≤ xs.length := List.length_pos.mpr hxs
        have h2 : 2 ≤ (xs ++ [x]).length := by
          simp only [List.length_append, List.length_cons, List.length_nil]
          omega
        rw [if_pos h2]
        have hidx : (xs ++ [x]).length - 2 = xs.length - 1 := by
          simp only [List.length_append, List.length_cons, List.length_nil]
          omega
        rw [hidx, List.getElem?_append_left (by omega), List.getLast?_eq_getElem?]

theorem history_eq_dropLast_dropLast (l : List String) :
    (if 2 < l.length then l.take (l.length - 2) else []) = l.dropLast.dropLast := by
  rw [List.dropLast_eq_take, List.dropLast_eq_take, List.length_take, List.take_take]
  by_cases h : 2 < l.length
  · rw [if_pos h]
    congr 1
    omega
  · rw [if_neg h]
    have h0 : min (min (l.length - 1) l.length - 1) (l.length - 1) = 0 := by omega
    rw [h0, List.take_zero]

/-- C9: the card-duel state broadcast exposes every player's remaining hand
size, the second-to-most-recent played card as `lastPlayedCard` (null when
fewer than two cards have been played), the history of cards older than
that, the current-turn id and the winner — while the most recently played
card itself appears nowhere in the payload (given the reachable-state facts
that it was just removed from the acting hand and that played cards are
distinct). -/
theorem C9_broadcast_hides_last_card (roomId : Nat) (room : Room)
    (hhands : ∀ c, room.playedCards.getLast? = some c → ∀ p ∈ room.players, c ∉ p.cards)
    (hnodup : ∀ c, room.playedCards.getLast? = some c → c ∉ room.playedCards.dropLast) :
    (broadcastGameState roomId room).players.map (fun v => v.cards.length)
      = room.players.map (fun p => p.cards.length) ∧
    (broadcastGameState roomId room).lastPlayedCard
      = room.playedCards.dropLast.getLast? ∧
    (broadcastGameState roomId room).playedCardHistory
      = room.playedCards.dropLast.dropLast ∧
    (broadcastGameState roomId room).currentPlayerId = room.currentPlayerSocketId ∧
    (broadcastGameState roomId room).winner = room.winner ∧
    (∀ c, room.playedCards.getLast? = some c →
      (broadcastGameState roomId room).lastPlayedCard ≠ some c ∧
      c ∉ (broadcastGameState roomId room).playedCardHistory ∧
      ∀ v ∈ (broadcastGameState roomId room).players, c ∉ v.cards) := by
  have hlast : (broadcastGameState roomId room).lastPlayedCard
      = room.playedCards.dropLast.getLast? := by
    rw [broadcastGameState]
    exact secondToLast_eq_dropLast_getLast? room.playedCards
  have hhist : (broadcastGameState roomId room).playedCardHistory
      = room.playedCards.dropLast.dropLast := by
    rw [broadcastGameState]
    exact history_eq_dropLast_dropLast room.playedCards
  refine ⟨?_, hlast, hhist, rfl, rfl, ?_⟩
  · rw [broadcastGameState, List.map_map]
    rfl
  · intro c hc
    refine ⟨?_, ?_, ?_⟩
    · rw [hlast]
      intro hcon
      exact hnodup c hc (List.mem_of_getLast?_eq_some hcon)
    · rw [hhist]
      intro hcon
      exact hnodup c hc (List.dropLast_subset _ hcon)
    · intro v hv
      rw [broadcastGameState] at hv
      simp only [List.mem_map] at hv
      rcases hv with ⟨p, hp, hpv⟩
      rw [← hpv]
      exact hhands c hc p hp

/-- Card-duel room for the C9 witness: three cards played, disjoint
hands that no longer contain the most recent card `"7"`. -/
def c9Room : Room :=
  { id := 7, isActive := true
    players := [{ socketId := 1, userName := "a", cards := ["K"] },
                { socketId := 2, userName := "b", cards := ["Q", "J"] }]
    playedCards := ["3", "5", "7"], currentPlayerIndex := 1,
    currentPlayerSocketId := 2 }

/-- Concrete instance of C9 on `c9Room`: the payload shows `"5"` as
`lastPlayedCard`, only `["3"]` as history, and `"7"` nowhere. -/
theorem C9_broadcast_hides_last_card_witness :
    (broadcastGameState 7 c9Room).players.map (fun v => v.cards.length)
      = c9Room.players.map (fun p => p.cards.length) ∧
    (broadcastGameState 7 c9Room).lastPlayedCard
      = c9Room.playedCards.dropLast.getLast? ∧
    (broadcastGameState 7 c9Room).playedCardHistory
      = c9Room.playedCards.dropLast.dropLast ∧
    (broadcastGameState 7 c9Room).currentPlayerId = c9Room.currentPlayerSocketId ∧
    (broadcastGameState 7 c9Room).winner = c9Room.winner ∧
    (∀ c, c9Room.playedCards.getLast? = some c →
      (broadcastGameState 7 c9Room).lastPlayedCard ≠ some c ∧
      c ∉ (broadcastGameState 7 c9Room).playedCardHistory ∧
      ∀ v ∈ (broadcastGameState 7 c9Room).players, c ∉ v.cards) :=
  C9_broadcast_hides_last_card 7 c9Room (by decide) (by decide)

/-!
## Arena lemmas and claims C5 / C6 / C8
-/

theorem isNum_iff {n : JNum} : isNum n = true ↔ ∃ q : ℚ, n = JNum.num q := by
  cases n <;> simp [isNum]

theorem stepBullet_fst_some {b : ABullet} {room : ARoom} {b' : ABullet}
    (h : (stepBullet b room).1 = some b') :
    b' = movedBullet b ∧ outOrSpent (movedBullet b) = false := by
  simp only [stepBullet] at h
  by_cases ho : outOrSpent (movedBullet b)
  · rw [if_pos ho] at h
    simp at h
  · rw [if_neg ho] at h
    cases hfh : firstHit (movedBullet b) room with
    | none =>
        rw [hfh] at h
        simp at h
        exact ⟨h.symm, by simpa using ho⟩
    | some v =>
        rw [hfh] at h
        simp at h

theorem bulletsLoop_mem_outOrSpent {bs : List ABullet} {room : ARoom} {b' : ABullet}
    (h : b' ∈ (bulletsLoop bs room).1) : outOrSpent b' = false := by
  induction bs generalizing room with
  | nil => simp [bulletsLoop] at h
  | cons b rest ih =>
      simp only [bulletsLoop] at h
      cases hs : (stepBullet b (bulletsLoop rest room).2).1 with
      | none =>
          rw [hs] at h
          exact ih h
      | some b2 =>
          rw [hs] at h
          rcases List.mem_cons.mp h with h1 | h1
          · rcases stepBullet_fst_some hs with ⟨hb2, hspent⟩
            rw [h1, hb2]
            exact hspent
          · exact ih h1

theorem survived_bounded {b : ABullet} (ho : outOrSpent b = false)
    (hf : finiteBullet b = true) :
    inBounds b = true ∧ underRangeLimit b = true := by
  simp only [finiteBullet, Bool.and_eq_true] at hf
  obtain ⟨⟨⟨⟨⟨hx, hy⟩, _⟩, _⟩, htr⟩, hrl⟩ := hf
  obtain ⟨qx, hqx⟩ := isNum_iff.mp hx
  obtain ⟨qy, hqy⟩ := isNum_iff.mp hy
  obtain ⟨qt, hqt⟩ := isNum_iff.mp htr
  simp only [outOrSpent, Bool.or_eq_false_iff, Bool.and_eq_false_iff] at ho
  obtain ⟨⟨⟨⟨hx0, hxw⟩, hy0⟩, hyw⟩, hlim⟩ := ho
  constructor
  · rw [inBounds, hqx, hqy]
    rw [hqx] at hx0 hxw
    rw [hqy] at hy0 hyw
    simp only [jlt] at hx0 hxw hy0 hyw
    simp only [jle, Bool.and_eq_true, decide_eq_true_eq]
    simp only [decide_eq_false_iff_not, not_lt] at hx0 hxw hy0 hyw
    exact ⟨⟨⟨hx0, hxw⟩, hy0⟩, hyw⟩
  · rw [underRangeLimit]
    rcases Bool.or_eq_true_iff.mp hrl with hnum | hinf
    · obtain ⟨qL, hqL⟩ := isNum_iff.mp hnum
      rcases hlim with hne | hge
      · rw [hqL] at hne
        simp at hne
      · rw [hqL, hqt] at hge ⊢
        simp only [jge, jle, decide_eq_false_iff_not, not_le] at hge
        simp [jlt, hge]
    · have : b.rangeLimit = JNum.inf := by simpa using hinf
      rw [this]
      simp

theorem endAgarIoRoom_bullets (gameId : Nat) (room : ARoom)
    (activeRoomIds : List Nat) (freshPos : Nat → ℚ × ℚ) :
    (endAgarIoRoom gameId room activeRoomIds freshPos).1.bullets = [] := rfl

/-- C6 (amended): after any `updateBullets` tick, every bullet still in the
room's bullet list whose position, velocity and traveled distance are finite
numbers (and whose range limit is a number or `Infinity`) lies within world
bounds with its traveled distance under its range limit; a removed bullet
was recycled into the pool in that same tick.  (The finiteness restriction
is forced by the counterexample below: a bullet with `NaN` velocity fails
every bounds comparison and stays in the list while out of bounds.) -/
theorem C6_surviving_finite_bullets_bounded (gameId : Nat) (room : ARoom)
    (activeRoomIds : List Nat) (freshPos : Nat → ℚ × ℚ) (b : ABullet)
    (hmem : b ∈ (updateBullets gameId room activeRoomIds freshPos).1.bullets)
    (hfin : finiteBullet b = true) :
    inBounds b = true ∧ underRangeLimit b = true := by
  simp only [updateBullets] at hmem
  by_cases h1 : (((bulletsLoop room.bullets room).2.alivePlayers.length == 1)
      && !winnerTruthy (bulletsLoop room.bullets room).2.winner) = true
  · rw [if_pos h1] at hmem
    rw [endAgarIoRoom_bullets] at hmem
    simp at hmem
  · rw [if_neg h1] at hmem
    by_cases h2 : (((bulletsLoop room.bullets room).2.alivePlayers.length == 0)
        && !winnerTruthy (bulletsLoop room.bullets room).2.winner) = true
    · rw [if_pos h2] at hmem
      rw [endAgarIoRoom_bullets] at hmem
      simp at hmem
    · rw [if_neg h2] at hmem
      exact survived_bounded (bulletsLoop_mem_outOrSpent hmem) hfin

/-- Spawn-position input used by the concrete arena runs. -/
def c6Fp : Nat → ℚ × ℚ := fun _ => (0, 0)

/-- An in-flight bullet whose `vx` is `NaN` — producible by `shoot` with a
non-finite direction vector (see the C8 counterexample). -/
def c6NanBullet : ABullet :=
  { id := 1, ownerId := 1, x := JNum.num 100, y := JNum.num 100
    vx := JNum.nan, vy := JNum.num 0, radius := JNum.num 5
    traveled := JNum.num 0, rangeLimit := JNum.inf, type := "charged" }

/-- Arena players for the C6 counterexample room. -/
def c6PlayerA : APlayer :=
  { socketId := 1, userName := "a", x := JNum.num 100, y := JNum.num 100
    mass := JNum.num 10, isDead := false }

/-- Second arena player for the C6 counterexample room. -/
def c6PlayerB : APlayer :=
  { socketId := 2, userName := "b", x := JNum.num 900, y := JNum.num 900
    mass := JNum.num 10, isDead := false }

/-- Arena room with two live players and the `NaN`-velocity bullet. -/
def c6Room : ARoom :=
  { id := 7
    playersMap := [c6PlayerA, c6PlayerB]
    alivePlayers := [1, 2]
    bullets := [c6NanBullet]
    bulletPool := []
    bulletIdCounter := 2
    spatialIndex := [playerEntry c6PlayerA, playerEntry c6PlayerB]
    bulletIntervalActive := true
    winner := none }

/-- C6 as frozen is false on the code: after a tick, the `NaN`-velocity
bullet is still in the room's bullet list, yet its position is not within
world bounds (every JS comparison against `NaN` is false, so the
out-of-bounds removal never fires for it). -/
theorem C6_nan_bullet_stays_out_of_bounds :
    (updateBullets 2 c6Room [7] c6Fp).1.bullets.length = 1 ∧
    (updateBullets 2 c6Room [7] c6Fp).1.bullets.all
      (fun b => inBounds b && underRangeLimit b) = false := by
  with_unfolding_all decide

/-- A finite bullet (speed vector `(3, 4)`, range limit 200) for the C6
witness. -/
def c6FinBullet : ABullet :=
  { id := 2, ownerId := 1, x := JNum.num 100, y := JNum.num 100
    vx := JNum.num 3, vy := JNum.num 4, radius := JNum.num 5
    traveled := JNum.num 0, rangeLimit := JNum.num 200, type := "charged" }

/-- Arena room with three live players (no winner check fires) and the
finite bullet, far from every player. -/
def c6wRoom : ARoom :=
  { id := 7
    playersMap := [{ socketId := 1, userName := "a", x := JNum.num 100,
                     y := JNum.num 100, mass := JNum.num 10, isDead := false },
                   { socketId := 2, userName := "b", x := JNum.num 900,
                     y := JNum.num 900, mass := JNum.num 10, isDead := false },
                   { socketId := 3, userName := "c", x := JNum.num 500,
                     y := JNum.num 500, mass := JNum.num 10, isDead := false }]
    alivePlayers := [1, 2, 3]
    bullets := [c6FinBullet]
    bulletPool := []
    bulletIdCounter := 3
    spatialIndex := []
    bulletIntervalActive := true
    winner := none }

/-- Concrete instance of the amended C6: the finite bullet survives the tick
at `(103, 104)` with 5 units traveled, in bounds and under its range
limit. -/
theorem C6_surviving_finite_bullets_bounded_witness :
    inBounds (movedBullet c6FinBullet) = true ∧
    underRangeLimit (movedBullet c6FinBullet) = true :=
  C6_surviving_finite_bullets_bounded 2 c6wRoom [7] c6Fp (movedBullet c6FinBullet)
    (by with_unfolding_all decide) (by with_unfolding_all decide)

/-- An already-ended arena room (interval cleared, no bullets, room no
longer in `activeRooms` after the first call) with a recorded winner. -/
def c5Room : ARoom :=
  { id := 7
    playersMap := [c6PlayerA, c6PlayerB]
    alivePlayers := [1, 2]
    bullets := []
    bulletPool := []
    bulletIdCounter := 1
    spatialIndex := [playerEntry c6PlayerA, playerEntry c6PlayerB]
    bulletIntervalActive := true
    winner := some "a" }

/-- C5 is false on the code for the arena engine: `endAgarIoRoom` emits
`gameEnded` (and a room-list rebroadcast) unconditionally on every call, so
the second of two back-to-back `end` calls emits a duplicate `gameEnded`
broadcast instead of emitting nothing.  (No error occurs: every state step
of the second call is guarded or idempotent.) -/
theorem C5_endAgarIoRoom_not_idempotent :
    (endAgarIoRoom 2 c5Room [7] c6Fp).2.2
      = [AEv.gameEnded 7 (some "a"), AEv.roomsList 2] ∧
    (endAgarIoRoom 2 (endAgarIoRoom 2 c5Room [7] c6Fp).1
        (endAgarIoRoom 2 c5Room [7] c6Fp).2.1 c6Fp).2.2
      = [AEv.gameEnded 7 (some "a"), AEv.roomsList 2] := by
  with_unfolding_all decide

/-- Arena room for the shoot-handler runs: player 1 alive, empty bullet
list and pool. -/
def c8Room : ARoom :=
  { id := 7
    playersMap := [c6PlayerA, c6PlayerB]
    alivePlayers := [1, 2]
    bullets := []
    bulletPool := []
    bulletIdCounter := 1
    spatialIndex := [playerEntry c6PlayerA, playerEntry c6PlayerB]
    bulletIntervalActive := true
    winner := none }

/-- C8 (amended): the shoot handler drops the action (no state mutation, no
broadcast) when the shooter is missing or eliminated, when `direction` is
absent or has a non-number-typed component, or when the bullet kind is not
one of the supported charge levels; for an accepted action the direction is
normalized and scaled by the kind's fixed speed, a bullet is drawn from the
pool (or freshly built — every field is overwritten either way), appended to
the bullet list, and a single `bulletCreated` event is emitted.  Finiteness
of the direction components is NOT validated: `typeof x === "number"` also
accepts `NaN` and the infinities (see the counterexample). -/
theorem C8_shoot_validation_and_creation (room : ARoom) (sockId : Nat)
    (bulletType : String) :
    (handleShootBullet room sockId bulletType none = (room, [])) ∧
    (∀ dxv dyv : JSVal, isNumberVal dxv = false ∨ isNumberVal dyv = false →
      handleShootBullet room sockId bulletType (some (dxv, dyv)) = (room, [])) ∧
    ((bulletType == "charged" || bulletType == "fullyCharged") = false →
      ∀ direction, handleShootBullet room sockId bulletType direction = (room, [])) ∧
    (getPlayer room sockId = none →
      ∀ direction, handleShootBullet room sockId bulletType direction = (room, [])) ∧
    (∀ player : APlayer, getPlayer room sockId = some player → player.isDead = true →
      ∀ direction, handleShootBullet room sockId bulletType direction = (room, [])) ∧
    (∀ (player : APlayer) (dx dy : JNum),
      getPlayer room sockId = some player → player.isDead = false →
      (bulletType == "charged" || bulletType == "fullyCharged") = true →
      handleShootBullet room sockId bulletType (some (JSVal.jsNum dx, JSVal.jsNum dy))
        = ({ room with
             bullets := room.bullets ++ [shotBullet room player bulletType dx dy]
             bulletPool := room.bulletPool.dropLast
             bulletIdCounter := room.bulletIdCounter + 1 },
           [AEv.bulletCreated (shotBullet room player bulletType dx dy)]) ∧
      (shotBullet room player bulletType dx dy).vx
        = jmul (jdiv dx (shotLength dx dy)) (JNum.num 30) ∧
      (shotBullet room player bulletType dx dy).vy
        = jmul (jdiv dy (shotLength dx dy)) (JNum.num 30)) := by
  refine ⟨?_, ?_, ?_, ?_, ?_, ?_⟩
  · rcases hgp : getPlayer room sockId with _ | player
    · simp [handleShootBullet, hgp]
    · by_cases hd : player.isDead <;> simp [handleShootBullet, hgp, hd]
  · intro dxv dyv hv
    rcases hgp : getPlayer room sockId with _ | player
    · simp [handleShootBullet, hgp]
    · by_cases hd : player.isDead
      · simp [handleShootBullet, hgp, hd]
      · rcases hv with hv | hv <;> simp [handleShootBullet, hgp, hd, hv]
  · intro hk direction
    rcases hgp : getPlayer room sockId with _ | player
    · simp [handleShootBullet, hgp]
    · by_cases hd : player.isDead
      · simp [handleShootBullet, hgp, hd]
      · rcases direction with _ | ⟨dxv, dyv⟩
        · simp [handleShootBullet, hgp, hd]
        · simp [handleShootBullet, hgp, hd, hk]
  · intro hgp direction
    simp [handleShootBullet, hgp]
  · intro player hgp hd direction
    simp [handleShootBullet, hgp, hd]
  · intro player dx dy hgp hd hk
    refine ⟨?_, rfl, rfl⟩
    simp [handleShootBullet, hgp, hd, hk, isNumberVal, shotBullet]

/-- C8 as frozen is false on the code: a shoot action whose direction is
`{x: Infinity, y: 0}` passes the `typeof === "number"` validation, so a
bullet is created and broadcast — and its `vx` is `NaN`
(`Infinity / Infinity * 30`), feeding the C6 counterexample. -/
theorem C8_nonfinite_direction_accepted :
    (handleShootBullet c8Room 1 "charged"
        (some (JSVal.jsNum JNum.inf, JSVal.jsNum (JNum.num 0)))).1.bullets.length = 1 ∧
    (handleShootBullet c8Room 1 "charged"
        (some (JSVal.jsNum JNum.inf, JSVal.jsNum (JNum.num 0)))).2 ≠ [] ∧
    ((handleShootBullet c8Room 1 "charged"
        (some (JSVal.jsNum JNum.inf, JSVal.jsNum (JNum.num 0)))).1.bullets.all
      (fun b => isNum b.vx)) = false := by
  with_unfolding_all decide

/-- Concrete instance of the amended C8: a valid charged shot with direction
`(3, 4)` appends exactly one bullet with velocity `(18, 24)` and emits a
single `bulletCreated` event. -/
theorem C8_shoot_validation_and_creation_witness :
    handleShootBullet c8Room 1 "charged"
        (some (JSVal.jsNum (JNum.num 3), JSVal.jsNum (JNum.num 4)))
      = ({ c8Room with
           bullets := c8Room.bullets ++ [shotBullet c8Room c6PlayerA "charged"
             (JNum.num 3) (JNum.num 4)]
           bulletPool := c8Room.bulletPool.dropLast
           bulletIdCounter := c8Room.bulletIdCounter + 1 },
         [AEv.bulletCreated (shotBullet c8Room c6PlayerA "charged"
           (JNum.num 3) (JNum.num 4))]) ∧
    (shotBullet c8Room c6PlayerA "charged" (JNum.num 3) (JNum.num 4)).vx
      = jmul (jdiv (JNum.num 3) (shotLength (JNum.num 3) (JNum.num 4))) (JNum.num 30) ∧
    (shotBullet c8Room c6PlayerA "charged" (JNum.num 3) (JNum.num 4)).vy
      = jmul (jdiv (JNum.num 4) (shotLength (JNum.num 3) (JNum.num 4))) (JNum.num 30) :=
  (C8_shoot_validation_and_creation c8Room 1 "charged").2.2.2.2.2 c6PlayerA
    (JNum.num 3) (JNum.num 4) (by with_unfolding_all decide) (by decide) (by decide)
